import Mathlib

/-!
# CHIP-8 interpreter core (`pkg/cpu.go`)

A shallow embedding of the Go type `CHIP8` and of its methods `Init`, `Cycle`,
`Buffer`, `Draw`, `Key` and `LoadROM`, followed by theorems about them.

Conventions of the embedding:

* machine integers are natural numbers; every place where Go arithmetic on
  `uint8` / `uint16` can wrap carries an explicit `% 256` / `% 65536`;
* a fixed-size Go array is a function from the index to the cell; only the
  indices below the array length are cells of the array, and every indexing
  whose index is not known to be in range is guarded by the bounds check the Go
  runtime performs;
* a run-time panic (index out of range) is the `Except.error` outcome, which
  carries the machine as the panic leaves it; a normal return is `Except.ok`;
* the value returned by `rand.Intn(256)` is an argument of `Cycle`;
* text written to standard output is not part of the state and is dropped.
-/

namespace Chip8

/-- The table `fontSet`: 16 glyphs of 5 bytes each. -/
def fontSet : List Nat :=
  [0xF0, 0x90, 0x90, 0x90, 0xF0,
   0x20, 0x60, 0x20, 0x20, 0x70,
   0xF0, 0x10, 0xF0, 0x80, 0xF0,
   0xF0, 0x10, 0xF0, 0x10, 0xF0,
   0x90, 0x90, 0xF0, 0x10, 0x10,
   0xF0, 0x80, 0xF0, 0x10, 0xF0,
   0xF0, 0x80, 0xF0, 0x90, 0xF0,
   0xF0, 0x10, 0x20, 0x40, 0x40,
   0xF0, 0x90, 0xF0, 0x90, 0xF0,
   0xF0, 0x90, 0xF0, 0x10, 0xF0,
   0xF0, 0x90, 0xF0, 0x90, 0x90,
   0xE0, 0x90, 0xE0, 0x90, 0xE0,
   0xF0, 0x80, 0x80, 0x80, 0xF0,
   0xE0, 0x90, 0x90, 0x90, 0xE0,
   0xF0, 0x80, 0xF0, 0x80, 0xF0,
   0xF0, 0x80, 0xF0, 0x80, 0x80]

/-- The struct `CHIP8`. Array fields are functions of the index. -/
structure CHIP8 where
  opcode : Nat
  memory : Nat → Nat
  stack : Nat → Nat
  v : Nat → Nat
  i : Nat
  pc : Nat
  sp : Nat
  display : Nat → Nat
  drawScreen : Bool
  delayTimer : Nat
  soundTimer : Nat
  keys : Nat → Nat

/-- The typing of the struct fields: `uint8` cells are below 256, `uint16`
cells below 65536, for every cell of every array. -/
structure WF (c : CHIP8) : Prop where
  opcode_lt : c.opcode < 65536
  memory_lt : ∀ k, k < 4096 → c.memory k < 256
  stack_lt : ∀ k, k < 16 → c.stack k < 65536
  v_lt : ∀ k, k < 16 → c.v k < 256
  i_lt : c.i < 65536
  pc_lt : c.pc < 65536
  sp_lt : c.sp < 256
  display_lt : ∀ k, k < 2048 → c.display k < 256
  delayTimer_lt : c.delayTimer < 256
  soundTimer_lt : c.soundTimer < 256
  keys_lt : ∀ k, k < 16 → c.keys k < 256

/-- Array store `a[idx] = val`. -/
def setAt (a : Nat → Nat) (idx val : Nat) : Nat → Nat :=
  fun k => if k = idx then val else a k

/-- The method `Init`. The timers and the key flags are not assigned. -/
def Init (c : CHIP8) : CHIP8 :=
  let display := (List.range (64 * 32)).foldl (fun d i => setAt d i 0) c.display
  let stack := (List.range 16).foldl (fun d i => setAt d i 0) c.stack
  let v := (List.range 16).foldl (fun d i => setAt d i 0) c.v
  let memory := (List.range 4096).foldl (fun d i => setAt d i 0) c.memory
  let memory := (List.range 80).foldl (fun d i => setAt d i (fontSet.getD i 0)) memory
  { c with
    pc := 0x200, opcode := 0, i := 0, sp := 0, drawScreen := true,
    display := display, stack := stack, v := v, memory := memory }

/-- The fetch of `Cycle`: `uint16(memory[pc])<<8 | uint16(memory[pc+1])`. Both
indexings are bounds-checked; `pc+1` is a `uint16` sum. -/
def fetch (c : CHIP8) : Except CHIP8 Nat :=
  if c.pc < 4096 then
    if (c.pc + 1) % 65536 < 4096 then
      .ok (((c.memory c.pc <<< 8) % 65536) ||| c.memory ((c.pc + 1) % 65536))
    else .error c
  else .error c

/-- The register index `(opcode & 0x0F00) >> 8`. -/
def opX (op : Nat) : Nat := (op &&& 0x0F00) >>> 8

/-- The register index `(opcode & 0x00F0) >> 4`. -/
def opY (op : Nat) : Nat := (op &&& 0x00F0) >>> 4

/-- The statement `c.pc += 2`. -/
def next (c : CHIP8) : CHIP8 := { c with pc := (c.pc + 2) % 65536 }

/-- The statement `c.pc += 4`. -/
def skip (c : CHIP8) : CHIP8 := { c with pc := (c.pc + 4) % 65536 }

/-- The statement `if cond { c.pc += 4 } else { c.pc += 2 }`. -/
def skipIf (cond : Bool) (c : CHIP8) : CHIP8 := if cond then skip c else next c

/-- The body of the inner loop of `Dxyn` for row `i` and column `j`. The mask
is `0x80 >> i`, with the row counter as the shift amount. -/
def drawPixel (pixel x y i j : Nat) (c : CHIP8) : Except CHIP8 CHIP8 :=
  if pixel &&& ((0x80 >>> i) % 256) ≠ 0 then
    let idx := ((x + j) % 65536 + (((y + i) % 65536) * 64) % 65536) % 65536
    if idx < 64 * 32 then
      let c1 := if c.display idx = 1 then { c with v := setAt c.v 0xF 1 } else c
      .ok { c1 with display := setAt c1.display idx (c1.display idx ^^^ 1) }
    else .error c
  else .ok c

/-- The inner loop of `Dxyn`: `for j := 0; j < width; j++`, with `width = 8`. -/
def drawRow (pixel x y i : Nat) (c : CHIP8) : Except CHIP8 CHIP8 :=
  (List.range 8).foldlM (fun c j => drawPixel pixel x y i j c) c

/-- The outer loop of `Dxyn`: `for i := 0; i < height; i++`, reading
`memory[i+c.i]` (a `uint16` sum, bounds-checked). -/
def drawSprite (x y height : Nat) (c : CHIP8) : Except CHIP8 CHIP8 :=
  (List.range height).foldlM
    (fun c i =>
      if (i + c.i) % 65536 < 4096 then drawRow (c.memory ((i + c.i) % 65536)) x y i c
      else .error c) c

/-- The loop of `Fx0A` over the 16 key flags; the second component is the
local `pressed`. -/
def scanKeys (x : Nat) (c : CHIP8) : CHIP8 × Bool :=
  (List.range 16).foldl
    (fun (st : CHIP8 × Bool) i =>
      if st.1.keys i ≠ 0 then ({ st.1 with v := setAt st.1.v x (i % 256) }, true) else st)
    (c, false)

/-- Bounds-checked store `c.memory[a] = val`. -/
def storeMem (a val : Nat) (c : CHIP8) : Except CHIP8 CHIP8 :=
  if a < 4096 then .ok { c with memory := setAt c.memory a val } else .error c

/-- The loop of `Fx55`: `memory[uint16(i)+c.i] = v[i]` for `i` from 0 to `x`. -/
def storeRegs (x : Nat) (c : CHIP8) : Except CHIP8 CHIP8 :=
  (List.range (x + 1)).foldlM (fun c i => storeMem ((i + c.i) % 65536) (c.v i) c) c

/-- The loop of `Fx65`: `v[i] = memory[c.i+uint16(i)]` for `i` from 0 to `x`. -/
def loadRegs (x : Nat) (c : CHIP8) : Except CHIP8 CHIP8 :=
  (List.range (x + 1)).foldlM
    (fun c i =>
      if (c.i + i) % 65536 < 4096 then
        .ok { c with v := setAt c.v i (c.memory ((c.i + i) % 65536)) }
      else .error c) c

/-- The `switch` of `Cycle`, run on the machine whose `opcode` field already
holds the fetched word. The Boolean of the result tells whether control
reaches the timer update after the `switch` (`true`) or the method has
returned from inside it (`false`). -/
def execute (rnd : Nat) (c : CHIP8) : Except CHIP8 (Bool × CHIP8) :=
  let op := c.opcode
  let x := opX op
  let y := opY op
  let fam := op &&& 0xF000
  if fam = 0x0000 then
    if op &&& 0x000F = 0x0000 then
      let display := (List.range (64 * 32)).foldl (fun d i => setAt d i 0) c.display
      .ok (true, next { c with display := display, drawScreen := true })
    else if op &&& 0x000F = 0x000E then
      let sp := (c.sp + 256 - 1) % 256
      if sp < 16 then .ok (true, next { c with sp := sp, pc := c.stack sp })
      else .error { c with sp := sp }
    else .ok (true, c)
  else if fam = 0x1000 then .ok (true, { c with pc := op &&& 0x0FFF })
  else if fam = 0x2000 then
    if c.sp < 16 then
      .ok (true, { c with stack := setAt c.stack c.sp c.pc, sp := (c.sp + 1) % 256,
                          pc := op &&& 0x0FFF })
    else .error c
  else if fam = 0x3000 then .ok (true, skipIf (c.v x = op &&& 0x00FF) c)
  else if fam = 0x4000 then .ok (true, skipIf (c.v x ≠ op &&& 0x00FF) c)
  else if fam = 0x5000 then .ok (true, skipIf (c.v x = c.v y) c)
  else if fam = 0x6000 then .ok (true, next { c with v := setAt c.v x ((op &&& 0x00FF) % 256) })
  else if fam = 0x7000 then
    .ok (true, next { c with v := setAt c.v x ((c.v x + (op &&& 0x00FF) % 256) % 256) })
  else if fam = 0x8000 then
    if op &&& 0x000F = 0x0000 then .ok (true, next { c with v := setAt c.v x (c.v y) })
    else if op &&& 0x000F = 0x0001 then
      .ok (true, next { c with v := setAt c.v x (c.v x ||| c.v y) })
    else if op &&& 0x000F = 0x0002 then
      .ok (true, next { c with v := setAt c.v x (c.v x &&& c.v y) })
    else if op &&& 0x000F = 0x0003 then
      .ok (true, next { c with v := setAt c.v x (c.v x ^^^ c.v y) })
    else if op &&& 0x000F = 0x0004 then
      let v1 := if (c.v x + c.v y) % 256 < c.v x then setAt c.v 0xF 1 else setAt c.v 0xF 0
      .ok (true, next { c with v := setAt v1 x ((v1 x + v1 y) % 256) })
    else if op &&& 0x000F = 0x0005 then
      let v1 := if c.v x > c.v y then setAt c.v 0xF 1 else setAt c.v 0xF 0
      .ok (true, next { c with v := setAt v1 x ((v1 x + 256 - v1 y % 256) % 256) })
    else if op &&& 0x000F = 0x0006 then
      .ok (true, next { c with v := setAt c.v x (c.v x >>> 1) })
    else if op &&& 0x000F = 0x0007 then
      let v1 := if c.v x > c.v y then setAt c.v 0xF 0 else setAt c.v 0xF 1
      .ok (true, next { c with v := setAt v1 x ((v1 y + 256 - v1 x % 256) % 256) })
    else if op &&& 0x000F = 0x000E then
      .ok (true, next { c with v := setAt c.v x ((c.v x <<< 1) % 256) })
    else .ok (true, c)
  else if fam = 0x9000 then .ok (true, skipIf (c.v x ≠ c.v y) c)
  else if fam = 0xA000 then .ok (true, next { c with i := op &&& 0x0FFF })
  else if fam = 0xB000 then
    .ok (true, next { c with pc := ((op &&& 0x0FFF) + c.v 0x0) % 65536 })
  else if fam = 0xC000 then
    .ok (true, next { c with v := setAt c.v x ((rnd % 256) &&& ((op &&& 0x00FF) % 256)) })
  else if fam = 0xD000 then
    let vx := c.v x
    let vy := c.v y
    let height := op &&& 0x00F
    match drawSprite vx vy height { c with v := setAt c.v 0xF 0 } with
    | .ok c1 => .ok (true, next { c1 with drawScreen := true })
    | .error c1 => .error c1
  else if fam = 0xE000 then
    if op &&& 0x00FF = 0x009E then
      if c.v x < 16 then .ok (true, skipIf (c.keys (c.v x) = 1) c) else .error c
    else if op &&& 0x00FF = 0x00A1 then
      if c.v x < 16 then .ok (true, skipIf (c.keys (c.v x) ≠ 1) c) else .error c
    else .ok (true, c)
  else if fam = 0xF000 then
    if op &&& 0x00FF = 0x0007 then .ok (true, next { c with v := setAt c.v x c.delayTimer })
    else if op &&& 0x00FF = 0x000A then
      let st := scanKeys x c
      if !st.2 then .ok (false, st.1) else .ok (true, next st.1)
    else if op &&& 0x00FF = 0x0015 then .ok (true, next { c with delayTimer := c.v x })
    else if op &&& 0x00FF = 0x0018 then .ok (true, next { c with soundTimer := c.v x })
    else if op &&& 0x00FF = 0x001E then .ok (true, next { c with i := (c.i + c.v x) % 65536 })
    else if op &&& 0x00FF = 0x0029 then .ok (true, next { c with i := (c.v x * 0x5) % 65536 })
    else if op &&& 0x00FF = 0x0033 then
      match storeMem c.i (c.v x / 100) c with
      | .error c1 => .error c1
      | .ok c1 =>
        match storeMem ((c1.i + 1) % 65536) ((c1.v x / 10) % 10) c1 with
        | .error c2 => .error c2
        | .ok c2 =>
          match storeMem ((c2.i + 2) % 65536) ((c2.v x % 100) / 10) c2 with
          | .error c3 => .error c3
          | .ok c3 => .ok (true, next c3)
    else if op &&& 0x00FF = 0x0055 then
      match storeRegs x c with
      | .error c1 => .error c1
      | .ok c1 => .ok (true, next { c1 with i := (x + 1) % 65536 })
    else if op &&& 0x00FF = 0x0065 then
      match loadRegs x c with
      | .error c1 => .error c1
      | .ok c1 => .ok (true, next { c1 with i := (x + 1) % 65536 })
    else .ok (true, c)
  else .ok (true, c)

/-- The timer update that ends `Cycle`. -/
def updateTimers (c : CHIP8) : CHIP8 :=
  let c1 := if c.delayTimer > 0 then { c with delayTimer := c.delayTimer - 1 } else c
  if c1.soundTimer > 0 then { c1 with soundTimer := c1.soundTimer - 1 } else c1

/-- The method `Cycle`: fetch, `switch`, timer update. `rnd` is the value
`rand.Intn(256)` yields if the instruction asks for it. -/
def Cycle (rnd : Nat) (c : CHIP8) : Except CHIP8 CHIP8 :=
  match fetch c with
  | .error c1 => .error c1
  | .ok op =>
    match execute rnd { c with opcode := op } with
    | .error c1 => .error c1
    | .ok (true, c1) => .ok (updateTimers c1)
    | .ok (false, c1) => .ok c1

/-- The method `Buffer`. -/
def Buffer (c : CHIP8) : Nat → Nat := c.display

/-- The method `Draw`: the returned flag and the machine afterwards. -/
def Draw (c : CHIP8) : Bool × CHIP8 := (c.drawScreen, { c with drawScreen := false })

/-- The method `Key`; `keys[key]` is bounds-checked. -/
def Key (key : Nat) (pressed : Bool) (c : CHIP8) : Except CHIP8 CHIP8 :=
  if key < 16 then
    if pressed then .ok { c with keys := setAt c.keys key 1 }
    else .ok { c with keys := setAt c.keys key 0 }
  else .error c

/-- The method `LoadROM` from the point where the file has been read into
`buffer`: the returned `error` (`none` for `nil`) and the machine afterwards. -/
def LoadROM (buffer : List Nat) (c : CHIP8) : Option String × CHIP8 :=
  if 4096 - 512 < buffer.length then (some "Program size bigger than memory", c)
  else
    (none, { c with
      memory := (List.range buffer.length).foldl
        (fun d i => setAt d (i + 512) (buffer.getD i 0)) c.memory })

/-- The machine with every cell zero. -/
def blank : CHIP8 :=
  { opcode := 0, memory := fun _ => 0, stack := fun _ => 0, v := fun _ => 0, i := 0, pc := 0,
    sp := 0, display := fun _ => 0, drawScreen := false, delayTimer := 0, soundTimer := 0,
    keys := fun _ => 0 }

/-- A machine at `0x200` whose next word is `w` and whose registers are `v`. -/
def atWord (w : Nat) (v : Nat → Nat) : CHIP8 :=
  { blank with
    pc := 0x200, v := v,
    memory := fun k => if k = 0x200 then w / 256 else if k = 0x201 then w % 256 else 0 }

/-- The words for which the `switch` of `Cycle` runs no instruction body: the
inner `default` branches of the families 0, 8 and F, and the family E outside
its two cases. -/
def unrecognised (op : Nat) : Prop :=
  (op &&& 0xF000 = 0x0000 ∧ op &&& 0x000F ≠ 0x0000 ∧ op &&& 0x000F ≠ 0x000E) ∨
  (op &&& 0xF000 = 0x8000 ∧ op &&& 0x000F ∉ [0x0, 0x1, 0x2, 0x3, 0x4, 0x5, 0x6, 0x7, 0xE]) ∨
  (op &&& 0xF000 = 0xE000 ∧ op &&& 0x00FF ∉ [0x9E, 0xA1]) ∨
  (op &&& 0xF000 = 0xF000 ∧
    op &&& 0x00FF ∉ [0x07, 0x0A, 0x15, 0x18, 0x1E, 0x29, 0x33, 0x55, 0x65])

instance (op : Nat) : Decidable (unrecognised op) := by
  unfold unrecognised; infer_instance

/-- Input for `8xy4` with `x = 0`, `y = 1`: `V0 = 200`, `V1 = 100`. -/
def addCarryState : CHIP8 :=
  atWord 0x8014 (fun k => if k = 0 then 200 else if k = 1 then 100 else 0)

/-- Input for `8xy4` with `x = 0xF`, `y = 0`: `V0 = 5`, `VF = 0`. -/
def addFlagDestState : CHIP8 := atWord 0x8F04 (fun k => if k = 0 then 5 else 0)

/-- Input for `8xy5` with `x = 0`, `y = 1`: `V0 = 3`, `V1 = 5`. -/
def subBorrowState : CHIP8 :=
  atWord 0x8015 (fun k => if k = 0 then 3 else if k = 1 then 5 else 0)

/-- Input for `8xy5` with `x = 0`, `y = 0xF`: `V0 = 10`, `VF = 3`. -/
def subFlagSourceState : CHIP8 :=
  atWord 0x80F5 (fun k => if k = 0 then 10 else if k = 15 then 3 else 0)

/-- Input for an unrecognised word: `0x8008` at `0x200`, delay timer 2. -/
def unknownWordState : CHIP8 := { atWord 0x8008 (fun _ => 0) with delayTimer := 2 }

/-- A program calling `0x300` from `0x200`, with `00EE` at `0x300`. -/
def callProgram : CHIP8 :=
  { blank with
    pc := 0x200,
    memory := fun k => if k = 0x200 then 0x23 else if k = 0x301 then 0xEE else 0 }

/-- Input for `Dxyn`: the word `D001` at `0x200`, `V0 = 0`, `I = 0x300`, the
sprite byte `0x40` at `0x300`, and a dark display. -/
def spriteBitState : CHIP8 :=
  { blank with
    pc := 0x200, i := 0x300,
    memory := fun k => if k = 0x200 then 0xD0 else if k = 0x201 then 0x01
                       else if k = 0x300 then 0x40 else 0 }

/-- Input for `Fx33`: the word `F033` at `0x200`, `V0 = 123`, `I = 0x300`. -/
def bcdState : CHIP8 := { atWord 0xF033 (fun k => if k = 0 then 123 else 0) with i := 0x300 }

/-- Input for `Fx55`: the word `F055` at `0x200`, `V0 = 7`, `I = 0x300`. -/
def storeState : CHIP8 := { atWord 0xF055 (fun k => if k = 0 then 7 else 0) with i := 0x300 }

/-- Input for `Fx0A`: the word `F00A` at `0x200`, no key pressed, delay timer 5
and sound timer 3. -/
def keyWaitState : CHIP8 :=
  { atWord 0xF00A (fun _ => 0) with delayTimer := 5, soundTimer := 3 }

/-- A machine that has run: delay timer 7, sound timer 9, key 3 pressed. -/
def usedState : CHIP8 :=
  { atWord 0x1200 (fun _ => 0) with
    delayTimer := 7, soundTimer := 9, keys := fun k => if k = 3 then 1 else 0 }

/-- The effect of a drawing loop that flips exactly the display cells in `T`,
each once: the flipped cells are XORed with 1, the others are kept, `VF`
becomes 1 when a flipped cell held 1 and is kept otherwise, and nothing else
changes. -/
structure Drawn (T : Nat → Prop) (c c' : CHIP8) : Prop where
  flip : ∀ k, T k → c'.display k = c.display k ^^^ 1
  keep : ∀ k, ¬ T k → c'.display k = c.display k
  regs : ∀ r, r ≠ 0xF → c'.v r = c.v r
  hit : (∃ k, T k ∧ c.display k = 1) → c'.v 0xF = 1
  miss : (¬ ∃ k, T k ∧ c.display k = 1) → c'.v 0xF = c.v 0xF
  frame : c' = { c with display := c'.display, v := c'.v }

/-- The display cells `Dxyn` flips for sprite data `mem[I..]`, origin `(x, y)`
and height `n`: all eight cells of row `i` when the byte of row `i` has the
bit of mask `0x80 >> i` set. -/
def SpriteCells (mem : Nat → Nat) (I x y n : Nat) (k : Nat) : Prop :=
  ∃ i ∈ List.range n, ∃ j ∈ List.range 8,
    mem (i + I) &&& (0x80 >>> i) ≠ 0 ∧ k = x + j + (y + i) * 64

/-- Input for two draws: the word `D012` at `0x200` and at `0x202`, `V0 = 3`,
`V1 = 2`, `I = 0x300`, sprite bytes `0x80`, `0x40`, and display cell 131 lit. -/
def drawTwiceState : CHIP8 :=
  { blank with
    pc := 0x200, i := 0x300,
    v := fun k => if k = 0 then 3 else if k = 1 then 2 else 0,
    display := fun k => if k = 131 then 1 else 0,
    memory := fun k =>
      if k = 0x200 then 0xD0 else if k = 0x201 then 0x12
      else if k = 0x202 then 0xD0 else if k = 0x203 then 0x12
      else if k = 0x300 then 0x80 else if k = 0x301 then 0x40 else 0 }

/-- Consecutive calls of `Cycle`, one per element of `rnds`. -/
def run (rnds : List Nat) (c : CHIP8) : Except CHIP8 CHIP8 :=
  rnds.foldlM (fun c r => Cycle r c) c

/-- Every cell of the 64 x 32 display is 0 or 1. -/
def Binary (d : Nat → Nat) : Prop := ∀ k, k < 64 * 32 → d k = 0 ∨ d k = 1

/-- The machines reachable from `Init` by calls of `Cycle`, `Key` and
`LoadROM` that succeed, and by calls of `Draw`. -/
inductive Reachable : CHIP8 → Prop
  | init (c : CHIP8) : Reachable (Init c)
  | cycle {s s' : CHIP8} (rnd : Nat) : Reachable s → Cycle rnd s = .ok s' → Reachable s'
  | key {s s' : CHIP8} (k : Nat) (p : Bool) : Reachable s → Key k p s = .ok s' → Reachable s'
  | load {s : CHIP8} (b : List Nat) :
      Reachable s → (LoadROM b s).1 = none → Reachable (LoadROM b s).2
  | draw {s : CHIP8} : Reachable s → Reachable (Draw s).2

/-- Input for `7xkk`: the word `7001` at `0x200`, `V0 = 255`, `VF = 9`. -/
def addByteState : CHIP8 := atWord 0x7001 (fun k => if k = 0 then 255 else if k = 15 then 9 else 0)

/-- Input for `00E0`: the word `00E0` at `0x200` and display cell 5 lit. -/
def clsState : CHIP8 :=
  { atWord 0x00E0 (fun _ => 0) with display := fun k => if k = 5 then 1 else 0 }

/-- Input for the family 0: zero-filled memory, `pc = 0x200`, display cell 5
lit. -/
def zeroWordState : CHIP8 :=
  { blank with pc := 0x200, display := fun k => if k = 5 then 1 else 0 }

/-- What every instruction body except the ones assigning them keeps: the
stack pointer and the two timers are unchanged, and a binary display stays
binary. -/
structure Kept (c c' : CHIP8) : Prop where
  sp_eq : c'.sp = c.sp
  delay_eq : c'.delayTimer = c.delayTimer
  sound_eq : c'.soundTimer = c.soundTimer
  binary : Binary c.display → Binary c'.display

/-- What one run of the `switch` on machine `c` guarantees about its outcome
`(b, c1)`: the stack pointer bound and a binary display are preserved, each
timer is unchanged except that `Fx15` / `Fx18` load it from `Vx`, and the
early return (`b = false`) happens only on `Fx0A` with no key pressed. -/
def StepKept (c : CHIP8) (b : Bool) (c1 : CHIP8) : Prop :=
  (c.sp ≤ 16 → c1.sp ≤ 16) ∧
  (Binary c.display → Binary c1.display) ∧
  c1.delayTimer = (if c.opcode &&& 0xF000 = 0xF000 ∧ c.opcode &&& 0x00FF = 0x0015
    then c.v (opX c.opcode) else c.delayTimer) ∧
  c1.soundTimer = (if c.opcode &&& 0xF000 = 0xF000 ∧ c.opcode &&& 0x00FF = 0x0018
    then c.v (opX c.opcode) else c.soundTimer) ∧
  (b = false → c.opcode &&& 0xF000 = 0xF000 ∧ c.opcode &&& 0x00FF = 0x000A ∧
    ∀ i, i < 16 → c.keys i = 0)

/-- One timer tick: a nonzero counter is decremented, a zero counter stays. -/
def tick (d : Nat) : Nat := if d > 0 then d - 1 else 0

/-- Input for `Fx15`: the word `F015` at `0x200`, `V0 = 9`, delay timer 3 and
sound timer 1. -/
def timerLoadState : CHIP8 :=
  { atWord 0xF015 (fun k => if k = 0 then 9 else 0) with delayTimer := 3, soundTimer := 1 }

/-- Input for `2nnn` on a full stack: the word `2300` at `0x200`, `sp = 16`. -/
def fullStackState : CHIP8 := { atWord 0x2300 (fun _ => 0) with sp := 16 }

/-! ## Decoding -/

theorem shiftRight_land (a b k : Nat) : (a &&& b) >>> k = (a >>> k) &&& (b >>> k) := by
  apply Nat.eq_of_testBit_eq
  intro j
  simp [Nat.testBit_shiftRight, Nat.testBit_and]

theorem land_000F (op : Nat) : op &&& 0x000F = op % 16 :=
  Nat.and_pow_two_sub_one_eq_mod op 4

theorem land_00FF (op : Nat) : op &&& 0x00FF = op % 256 :=
  Nat.and_pow_two_sub_one_eq_mod op 8

theorem land_0FFF (op : Nat) : op &&& 0x0FFF = op % 4096 :=
  Nat.and_pow_two_sub_one_eq_mod op 12

theorem opX_eq (op : Nat) : opX op = op / 256 % 16 := by
  unfold opX
  rw [shiftRight_land, Nat.shiftRight_eq_div_pow]
  exact Nat.and_pow_two_sub_one_eq_mod _ 4

theorem opY_eq (op : Nat) : opY op = op / 16 % 16 := by
  unfold opY
  rw [shiftRight_land, Nat.shiftRight_eq_div_pow]
  exact Nat.and_pow_two_sub_one_eq_mod _ 4

theorem land_F000 (op : Nat) : op &&& 0xF000 = (op / 4096 % 16) * 4096 := by
  have h1 : (op &&& 0xF000) >>> 12 = op / 4096 % 16 := by
    rw [shiftRight_land, Nat.shiftRight_eq_div_pow]
    exact Nat.and_pow_two_sub_one_eq_mod _ 4
  have h2 : (op &&& 0xF000) % 4096 = 0 := by
    have h3 : (0xF000 &&& 0x0FFF : Nat) = 0 := by decide
    rw [← land_0FFF, Nat.and_assoc, h3, Nat.and_zero]
  rw [Nat.shiftRight_eq_div_pow] at h1
  omega

/-! ## Frame lemmas for the timer update -/

@[simp] theorem updateTimers_v (c : CHIP8) : (updateTimers c).v = c.v := by
  unfold updateTimers; dsimp only; split <;> split <;> rfl

@[simp] theorem updateTimers_pc (c : CHIP8) : (updateTimers c).pc = c.pc := by
  unfold updateTimers; dsimp only; split <;> split <;> rfl

@[simp] theorem updateTimers_sp (c : CHIP8) : (updateTimers c).sp = c.sp := by
  unfold updateTimers; dsimp only; split <;> split <;> rfl

@[simp] theorem updateTimers_stack (c : CHIP8) : (updateTimers c).stack = c.stack := by
  unfold updateTimers; dsimp only; split <;> split <;> rfl

@[simp] theorem updateTimers_i (c : CHIP8) : (updateTimers c).i = c.i := by
  unfold updateTimers; dsimp only; split <;> split <;> rfl

@[simp] theorem updateTimers_memory (c : CHIP8) : (updateTimers c).memory = c.memory := by
  unfold updateTimers; dsimp only; split <;> split <;> rfl

@[simp] theorem updateTimers_display (c : CHIP8) : (updateTimers c).display = c.display := by
  unfold updateTimers; dsimp only; split <;> split <;> rfl

@[simp] theorem updateTimers_keys (c : CHIP8) : (updateTimers c).keys = c.keys := by
  unfold updateTimers; dsimp only; split <;> split <;> rfl

@[simp] theorem updateTimers_opcode (c : CHIP8) : (updateTimers c).opcode = c.opcode := by
  unfold updateTimers; dsimp only; split <;> split <;> rfl

@[simp] theorem updateTimers_drawScreen (c : CHIP8) :
    (updateTimers c).drawScreen = c.drawScreen := by
  unfold updateTimers; dsimp only; split <;> split <;> rfl

theorem updateTimers_delayTimer (c : CHIP8) :
    (updateTimers c).delayTimer
      = if c.delayTimer > 0 then c.delayTimer - 1 else c.delayTimer := by
  unfold updateTimers; dsimp only; split <;> split <;> rfl

theorem updateTimers_soundTimer (c : CHIP8) :
    (updateTimers c).soundTimer
      = if c.soundTimer > 0 then c.soundTimer - 1 else c.soundTimer := by
  unfold updateTimers; dsimp only; split <;> split <;> simp_all

theorem fetch_ok_pc {c : CHIP8} {op : Nat} (h : fetch c = .ok op) : c.pc + 1 < 4096 := by
  unfold fetch at h
  split at h
  · split at h
    · omega
    · cases h
  · cases h

theorem fetch_ok_of_eq {c c' : CHIP8} {op : Nat} (hpc : c'.pc = c.pc)
    (hmem : c'.memory = c.memory) (h : fetch c = .ok op) : fetch c' = .ok op := by
  unfold fetch at h ⊢
  rw [hpc, hmem]
  by_cases h1 : c.pc < 4096
  · by_cases h2 : (c.pc + 1) % 65536 < 4096
    · simp only [h1, h2, if_true] at h ⊢
      exact h
    · simp [h1, h2] at h
  · simp [h1] at h

theorem WF_atWord (w : Nat) (v : Nat → Nat) (hw : w < 65536) (hv : ∀ k, v k < 256) :
    WF (atWord w v) := by
  refine ⟨by simp [atWord, blank], ?_, fun _ _ => by simp [atWord, blank], fun k _ => hv k,
    by simp [atWord, blank], by simp [atWord, blank], by simp [atWord, blank],
    fun _ _ => by simp [atWord, blank], by simp [atWord, blank], by simp [atWord, blank],
    fun _ _ => by simp [atWord, blank]⟩
  intro k _
  show (if k = 0x200 then w / 256 else if k = 0x201 then w % 256 else 0) < 256
  split
  · omega
  · split <;> omega

/-! ## Register arithmetic -/

/-- C7, as amended: on `8xy4` with a destination `x` other than `0xF`, `Cycle`
succeeds and leaves `VF = 1` if the sum of the old `Vx` and `Vy` exceeds 255,
and `VF = 0` otherwise. -/
theorem add_sets_carry_flag (rnd : Nat) (s : CHIP8) (x y : Nat) (hx : x < 15) (hy : y < 16)
    (hwf : WF s) (hf : fetch s = .ok (0x8004 + x * 0x100 + y * 0x10)) :
    ∃ s', Cycle rnd s = .ok s' ∧ s'.v 0xF = if s.v x + s.v y > 255 then 1 else 0 := by
  have hfam : (0x8004 + x * 0x100 + y * 0x10) &&& 0xF000 = 0x8000 := by
    rw [land_F000]; omega
  have hlow : (0x8004 + x * 0x100 + y * 0x10) &&& 0x000F = 4 := by
    rw [land_000F]; omega
  have hX : opX (0x8004 + x * 0x100 + y * 0x10) = x := by rw [opX_eq]; omega
  have hY : opY (0x8004 + x * 0x100 + y * 0x10) = y := by rw [opY_eq]; omega
  have hvy := hwf.v_lt y hy
  refine ⟨_, by simp [Cycle, hf, execute, hfam, hlow, hX, hY]; rfl, ?_⟩
  simp only [updateTimers_v, next, setAt]
  have hne : ¬ (15 = x) := by omega
  simp only [hne, if_false]
  split <;> split <;> first | rfl | omega

/-- Witness of C7: `V0 = 200`, `V1 = 100`, word `8014`. -/
theorem add_sets_carry_flag_witness :
    ∃ s', Cycle 0 addCarryState = .ok s' ∧
      s'.v 0xF = if addCarryState.v 0 + addCarryState.v 1 > 255 then 1 else 0 :=
  add_sets_carry_flag 0 addCarryState 0 1 (by decide) (by decide)
    (WF_atWord _ _ (by decide) (fun k => by split_ifs <;> omega)) rfl

/-- C7 as stated fails when the destination is `VF`: on `8F04` with `V0 = 5` and
`VF = 0` the sum is 5, and `VF` ends as 5, not as the carry 0. -/
theorem add_flag_dest_counterexample :
    WF addFlagDestState ∧
    fetch addFlagDestState = .ok (0x8004 + 0xF * 0x100 + 0 * 0x10) ∧
    ¬ ∃ s', Cycle 0 addFlagDestState = .ok s' ∧
      s'.v 0xF = if addFlagDestState.v 0xF + addFlagDestState.v 0 > 255 then 1 else 0 := by
  refine ⟨WF_atWord _ _ (by decide) (fun k => by split_ifs <;> omega), rfl, ?_⟩
  rintro ⟨s', h, hv⟩
  obtain ⟨t, ht, htv⟩ : ∃ t, Cycle 0 addFlagDestState = .ok t ∧ t.v 0xF = 5 := ⟨_, rfl, rfl⟩
  rw [ht] at h
  cases h
  rw [htv] at hv
  revert hv
  decide

/-- C8, as amended: on `8xy5` with a destination `x` other than `0xF`, `Cycle`
succeeds, `VF` is 1 if the old `Vx` exceeds the old `Vy` and 0 otherwise, and
`Vx` is `(Vx - Vy) mod 256` on the old values when `y` is not `0xF`; when `y`
is `0xF` the subtrahend is the flag just written. -/
theorem sub_sets_flag_then_subtracts (rnd : Nat) (s : CHIP8) (x y : Nat) (hx : x < 15)
    (hy : y < 16) (hf : fetch s = .ok (0x8005 + x * 0x100 + y * 0x10)) :
    ∃ s', Cycle rnd s = .ok s' ∧
      s'.v 0xF = (if s.v x > s.v y then 1 else 0) ∧
      (y ≠ 0xF → (s'.v x : Int) = ((s.v x : Int) - (s.v y : Int)) % 256) ∧
      (y = 0xF →
        (s'.v x : Int) = ((s.v x : Int) - (if s.v x > s.v y then 1 else 0)) % 256) := by
  have hfam : (0x8005 + x * 0x100 + y * 0x10) &&& 0xF000 = 0x8000 := by
    rw [land_F000]; omega
  have hlow : (0x8005 + x * 0x100 + y * 0x10) &&& 0x000F = 5 := by
    rw [land_000F]; omega
  have hX : opX (0x8005 + x * 0x100 + y * 0x10) = x := by rw [opX_eq]; omega
  have hY : opY (0x8005 + x * 0x100 + y * 0x10) = y := by rw [opY_eq]; omega
  have hstep : Cycle rnd s = .ok (updateTimers (next { s with
      opcode := 0x8005 + x * 0x100 + y * 0x10,
      v := setAt (if s.v x > s.v y then setAt s.v 0xF 1 else setAt s.v 0xF 0) x
        (((if s.v x > s.v y then setAt s.v 0xF 1 else setAt s.v 0xF 0) x + 256
          - (if s.v x > s.v y then setAt s.v 0xF 1 else setAt s.v 0xF 0) y % 256) % 256) })) := by
    simp [Cycle, hf, execute, hfam, hlow, hX, hY]
  have hne : ¬ (x = 15) := by omega
  have hne2 : ¬ (15 = x) := by omega
  refine ⟨_, hstep, ?_, ?_, ?_⟩
  · by_cases h : s.v x > s.v y <;> simp [next, setAt, h, hne2]
  · intro hy15
    by_cases h : s.v x > s.v y <;> simp only [updateTimers_v, next, setAt, h, hne, hy15,
      if_true, if_false] <;> omega
  · intro hy15
    subst hy15
    by_cases h : s.v x > s.v 15 <;> simp only [updateTimers_v, next, setAt, h, hne,
      if_true, if_false] <;> omega

/-- Witness of C8: `V0 = 3`, `V1 = 5`, word `8015`. -/
theorem sub_sets_flag_then_subtracts_witness :
    ∃ s', Cycle 0 subBorrowState = .ok s' ∧
      s'.v 0xF = (if subBorrowState.v 0 > subBorrowState.v 1 then 1 else 0) ∧
      ((1 : Nat) ≠ 0xF →
        (s'.v 0 : Int) = ((subBorrowState.v 0 : Int) - (subBorrowState.v 1 : Int)) % 256) ∧
      ((1 : Nat) = 0xF →
        (s'.v 0 : Int) = ((subBorrowState.v 0 : Int)
          - (if subBorrowState.v 0 > subBorrowState.v 1 then 1 else 0)) % 256) :=
  sub_sets_flag_then_subtracts 0 subBorrowState 0 1 (by decide) (by decide) rfl

/-- C8 as stated fails when the source is `VF`: on `80F5` with `V0 = 10` and
`VF = 3`, `V0` ends as 9 (10 minus the new flag 1), not as `(10 - 3) mod 256`. -/
theorem sub_flag_source_counterexample :
    fetch subFlagSourceState = .ok (0x8005 + 0 * 0x100 + 0xF * 0x10) ∧
    ¬ ∃ s', Cycle 0 subFlagSourceState = .ok s' ∧
      s'.v 0xF = (if subFlagSourceState.v 0 > subFlagSourceState.v 0xF then 1 else 0) ∧
      (s'.v 0 : Int)
        = ((subFlagSourceState.v 0 : Int) - (subFlagSourceState.v 0xF : Int)) % 256 := by
  refine ⟨rfl, ?_⟩
  rintro ⟨s', h, -, hv⟩
  obtain ⟨t, ht, htv⟩ : ∃ t, Cycle 0 subFlagSourceState = .ok t ∧ t.v 0 = 9 := ⟨_, rfl, rfl⟩
  rw [ht] at h
  cases h
  rw [htv] at hv
  revert hv
  decide

/-! ## Call and return -/

/-- C10: on `2nnn` with `sp < 16`, `Cycle` stores the call address in
`stack[sp]`, increments `sp` and jumps to `nnn`; a `Cycle` on `00EE` from any
machine with that `sp` and that stack slot returns to the call address plus 2
with the old `sp`; and when `00EE` stands at `nnn`, two consecutive `Cycle`s
take `pc` from `a` to `a + 2` and leave `sp` unchanged. -/
theorem call_return_round_trip (r1 r2 : Nat) (s : CHIP8) (nnn : Nat) (hn : nnn < 4096)
    (hsp : s.sp < 16) (hf : fetch s = .ok (0x2000 + nnn)) :
    (∃ s1, Cycle r1 s = .ok s1 ∧ s1.stack s.sp = s.pc ∧ s1.sp = s.sp + 1 ∧ s1.pc = nnn) ∧
    (∀ t : CHIP8, fetch t = .ok 0x00EE → t.sp = s.sp + 1 → t.stack s.sp = s.pc →
      ∃ t', Cycle r2 t = .ok t' ∧ t'.pc = s.pc + 2 ∧ t'.sp = s.sp) ∧
    (fetch { s with pc := nnn } = .ok 0x00EE →
      ∃ s1 s2, Cycle r1 s = .ok s1 ∧ Cycle r2 s1 = .ok s2 ∧
        s2.pc = s.pc + 2 ∧ s2.sp = s.sp) := by
  have hpc := fetch_ok_pc hf
  have hfam : (0x2000 + nnn) &&& 0xF000 = 0x2000 := by rw [land_F000]; omega
  have hnnn : (0x2000 + nnn) &&& 0x0FFF = nnn := by rw [land_0FFF]; omega
  have hcall : Cycle r1 s = .ok (updateTimers { s with
      opcode := 0x2000 + nnn, stack := setAt s.stack s.sp s.pc, sp := (s.sp + 1) % 256,
      pc := nnn }) := by
    simp [Cycle, hf, execute, hfam, hnnn, hsp]
  have hret : ∀ t : CHIP8, fetch t = .ok 0x00EE → t.sp = s.sp + 1 → t.stack s.sp = s.pc →
      ∃ t', Cycle r2 t = .ok t' ∧ t'.pc = s.pc + 2 ∧ t'.sp = s.sp := by
    intro t ht htsp htst
    have h1 : (t.sp + 255) % 256 = s.sp := by omega
    have e1 : (0x00EE &&& 0xF000 : Nat) = 0 := by decide
    have e2 : (0x00EE &&& 0x000F : Nat) = 14 := by decide
    have hstep : Cycle r2 t = .ok (updateTimers (next { t with
        opcode := 0x00EE, sp := s.sp, pc := t.stack s.sp })) := by
      simp [Cycle, ht, execute, h1, hsp, e1, e2]
    refine ⟨_, hstep, ?_, ?_⟩
    · simp only [updateTimers_pc, next, htst]
      omega
    · simp [next]
  refine ⟨⟨_, hcall, ?_, ?_, ?_⟩, hret, ?_⟩
  · simp [setAt]
  · simp only [updateTimers_sp]; omega
  · simp
  · intro h00
    have hf1 : fetch (updateTimers { s with
        opcode := 0x2000 + nnn, stack := setAt s.stack s.sp s.pc, sp := (s.sp + 1) % 256,
        pc := nnn }) = .ok 0x00EE :=
      fetch_ok_of_eq (by simp) (by simp) h00
    obtain ⟨t', h1, h2, h3⟩ := hret _ hf1 (by simp only [updateTimers_sp]; omega)
      (by simp [setAt])
    exact ⟨_, t', hcall, h1, h2, h3⟩

/-- Witness of C10: `2300` at `0x200` with `00EE` at `0x300`. -/
theorem call_return_round_trip_witness :
    ∃ s1 s2, Cycle 0 callProgram = .ok s1 ∧ Cycle 0 s1 = .ok s2 ∧
      s2.pc = callProgram.pc + 2 ∧ s2.sp = callProgram.sp :=
  (call_return_round_trip 0 0 callProgram 0x300 (by decide) (by decide) rfl).2.2 rfl

/-! ## Unrecognised words -/

/-- The fetch succeeds whenever `pc <= 0xFFE`, with the big-endian word. -/
theorem fetch_of_pc_le (c : CHIP8) (h : c.pc ≤ 0xFFE) :
    fetch c = .ok (((c.memory c.pc <<< 8) % 65536) ||| c.memory (c.pc + 1)) := by
  have h1 : c.pc < 4096 := by omega
  have h2 : (c.pc + 1) % 65536 = c.pc + 1 := by omega
  have h3 : c.pc + 1 < 4096 := by omega
  simp only [fetch, h1, h2, h3, if_true]

/-- The words `0x8008`, `0xE000` and `0xF0FF` reach no instruction body. -/
theorem unrecognised_examples :
    unrecognised 0x8008 ∧ unrecognised 0xE000 ∧ unrecognised 0xF0FF := by
  decide

theorem Cycle_unrecognised (rnd : Nat) (s : CHIP8) (op : Nat) (hf : fetch s = .ok op)
    (hu : unrecognised op) : Cycle rnd s = .ok (updateTimers { s with opcode := op }) := by
  rcases hu with ⟨hfam, h0, hE⟩ | ⟨hfam, hl⟩ | ⟨hfam, hl⟩ | ⟨hfam, hl⟩
  · simp [Cycle, hf, execute, hfam, h0, hE]
  · simp only [List.mem_cons, List.mem_singleton, not_or, List.not_mem_nil,
      not_false_eq_true, and_true] at hl
    obtain ⟨a0, a1, a2, a3, a4, a5, a6, a7, a8⟩ := hl
    simp [Cycle, hf, execute, hfam, a0, a1, a2, a3, a4, a5, a6, a7, a8]
  · simp only [List.mem_cons, List.mem_singleton, not_or, List.not_mem_nil,
      not_false_eq_true, and_true] at hl
    obtain ⟨a0, a1⟩ := hl
    simp [Cycle, hf, execute, hfam, a0, a1]
  · simp only [List.mem_cons, List.mem_singleton, not_or, List.not_mem_nil,
      not_false_eq_true, and_true] at hl
    obtain ⟨a0, a1, a2, a3, a4, a5, a6, a7, a8⟩ := hl
    simp [Cycle, hf, execute, hfam, a0, a1, a2, a3, a4, a5, a6, a7, a8]

/-- C6, as amended: when the fetched word is one for which the `switch` runs
no instruction body, `Cycle` succeeds, leaves the V registers, `I`, `sp`, the
stack, memory, the display and the key flags unchanged, decrements each
nonzero timer, and leaves `pc` unchanged, so that the next fetch yields the
same word again. -/
theorem unrecognised_word_keeps_pc (rnd : Nat) (s : CHIP8) (op : Nat)
    (hf : fetch s = .ok op) (hu : unrecognised op) :
    ∃ s', Cycle rnd s = .ok s' ∧
      s'.v = s.v ∧ s'.i = s.i ∧ s'.sp = s.sp ∧ s'.stack = s.stack ∧
      s'.memory = s.memory ∧ s'.display = s.display ∧ s'.keys = s.keys ∧
      s'.delayTimer = (if s.delayTimer > 0 then s.delayTimer - 1 else s.delayTimer) ∧
      s'.soundTimer = (if s.soundTimer > 0 then s.soundTimer - 1 else s.soundTimer) ∧
      s'.pc = s.pc ∧ fetch s' = .ok op := by
  refine ⟨_, Cycle_unrecognised rnd s op hf hu, ?_, ?_, ?_, ?_, ?_, ?_, ?_, ?_, ?_, ?_, ?_⟩
  · simp
  · simp
  · simp
  · simp
  · simp
  · simp
  · simp
  · rw [updateTimers_delayTimer]
  · rw [updateTimers_soundTimer]
  · simp
  · exact fetch_ok_of_eq (by simp) (by simp) hf

/-- Witness of C6: the word `0x8008` at `0x200`, with delay timer 2. -/
theorem unrecognised_word_keeps_pc_witness :
    ∃ s', Cycle 0 unknownWordState = .ok s' ∧
      s'.v = unknownWordState.v ∧ s'.i = unknownWordState.i ∧ s'.sp = unknownWordState.sp ∧
      s'.stack = unknownWordState.stack ∧ s'.memory = unknownWordState.memory ∧
      s'.display = unknownWordState.display ∧ s'.keys = unknownWordState.keys ∧
      s'.delayTimer = (if unknownWordState.delayTimer > 0 then unknownWordState.delayTimer - 1
        else unknownWordState.delayTimer) ∧
      s'.soundTimer = (if unknownWordState.soundTimer > 0 then unknownWordState.soundTimer - 1
        else unknownWordState.soundTimer) ∧
      s'.pc = unknownWordState.pc ∧ fetch s' = .ok 0x8008 :=
  unrecognised_word_keeps_pc 0 unknownWordState 0x8008 rfl (by decide)

/-- C6 as stated fails: on the word `0x8008` at `pc = 0x200`, `Cycle` succeeds
but no successor has `pc` advanced by 2; `pc` stays at `0x200`. -/
theorem unrecognised_word_counterexample :
    unknownWordState.pc ≤ 0xFFE ∧ fetch unknownWordState = .ok 0x8008 ∧
    (∃ s', Cycle 0 unknownWordState = .ok s' ∧ s'.pc = 0x200) ∧
    ¬ ∃ s', Cycle 0 unknownWordState = .ok s' ∧ s'.pc = unknownWordState.pc + 2 := by
  refine ⟨by decide, rfl, ⟨_, rfl, rfl⟩, ?_⟩
  rintro ⟨s', h, hpc⟩
  obtain ⟨t, ht, htv⟩ : ∃ t, Cycle 0 unknownWordState = .ok t ∧ t.pc = 0x200 := ⟨_, rfl, rfl⟩
  rw [ht] at h
  cases h
  rw [htv] at hpc
  revert hpc
  decide

/-! ## Evaluations at single inputs -/

/-- C1 at a failing input: the sprite byte at `I` is `0x40`, whose bit 1
(counted from the most significant bit) is set, `Vx = Vy = 0` and `n = 1`;
`Cycle` on `D001` succeeds and leaves display cell 1 dark, because the mask
of row 0 is `0x80 >> 0` for every column. -/
theorem sprite_bit_not_drawn :
    fetch spriteBitState = .ok 0xD001 ∧
    spriteBitState.memory (spriteBitState.i + 0) &&& (0x80 >>> 1) ≠ 0 ∧
    spriteBitState.display ((spriteBitState.v 0 + 1) + (spriteBitState.v 0 + 0) * 64) = 0 ∧
    ∃ s', Cycle 0 spriteBitState = .ok s' ∧
      s'.display ((spriteBitState.v 0 + 1) + (spriteBitState.v 0 + 0) * 64) = 0 :=
  ⟨rfl, by decide, rfl, _, rfl, rfl⟩

/-- C2 at a failing input: with `Vx = 123`, `Cycle` on `F033` stores 1, 2 and
2 at `I`, `I+1`, `I+2`; the third cell holds the tens digit again, not the
units digit 3. -/
theorem bcd_third_cell_is_tens_digit :
    fetch bcdState = .ok 0xF033 ∧ bcdState.v 0 % 10 = 3 ∧
    ∃ s', Cycle 0 bcdState = .ok s' ∧
      s'.memory bcdState.i = 1 ∧ s'.memory (bcdState.i + 1) = 2 ∧
      s'.memory (bcdState.i + 2) = 2 :=
  ⟨rfl, rfl, _, rfl, rfl, rfl, rfl⟩

/-- C3 at a failing input: with `I = 0x300` and `x = 0`, `Cycle` on `F055`
stores `V0` at `0x300` and leaves `I = 1`, not `0x301`. -/
theorem store_regs_resets_index :
    fetch storeState = .ok 0xF055 ∧ storeState.i = 0x300 ∧
    ∃ s', Cycle 0 storeState = .ok s' ∧ s'.memory 0x300 = 7 ∧ s'.i = 1 :=
  ⟨rfl, rfl, _, rfl, rfl, rfl⟩

/-- C4 at a failing input: with no key pressed, delay timer 5 and sound timer
3, `Cycle` on `F00A` leaves `pc` and `V0` unchanged and leaves both timers
unchanged as well: the method returns before the timer update. -/
theorem key_wait_skips_timers :
    fetch keyWaitState = .ok 0xF00A ∧ (∀ k, keyWaitState.keys k = 0) ∧
    ∃ s', Cycle 0 keyWaitState = .ok s' ∧ s'.pc = keyWaitState.pc ∧
      s'.v 0 = keyWaitState.v 0 ∧ s'.delayTimer = 5 ∧ s'.soundTimer = 3 :=
  ⟨rfl, fun _ => rfl, _, rfl, rfl, rfl, rfl, rfl⟩

/-- C5 at a failing input: `Init` on a machine with delay timer 7, sound timer
9 and key 3 pressed leaves these three as they are. -/
theorem init_keeps_timers_and_keys :
    (Init usedState).delayTimer = 7 ∧ (Init usedState).soundTimer = 9 ∧
    (Init usedState).keys 3 = 1 ∧ (Init usedState).pc = 0x200 ∧ (Init usedState).sp = 0 :=
  ⟨rfl, rfl, rfl, rfl, rfl⟩

/-! ## The sprite loops -/

theorem Drawn.of_empty {T : Nat → Prop} (c : CHIP8) (hT : ∀ k, ¬ T k) : Drawn T c c :=
  ⟨fun k hk => absurd hk (hT k), fun _ _ => rfl, fun _ _ => rfl,
    fun ⟨k, hk, _⟩ => absurd hk (hT k), fun _ => rfl, rfl⟩

theorem Drawn.congr {T T' : Nat → Prop} {c c' : CHIP8} (h : Drawn T c c')
    (hT : ∀ k, T k ↔ T' k) : Drawn T' c c' := by
  have hfun : T = T' := funext fun k => propext (hT k)
  rw [← hfun]
  exact h

theorem Drawn.memory_eq {T : Nat → Prop} {c c' : CHIP8} (h : Drawn T c c') :
    c'.memory = c.memory := by
  rw [h.frame]

theorem Drawn.i_eq {T : Nat → Prop} {c c' : CHIP8} (h : Drawn T c c') : c'.i = c.i := by
  rw [h.frame]

theorem Drawn.pc_eq {T : Nat → Prop} {c c' : CHIP8} (h : Drawn T c c') : c'.pc = c.pc := by
  rw [h.frame]

theorem Drawn.comp {T1 T2 : Nat → Prop} {c c1 c2 : CHIP8} (h1 : Drawn T1 c c1)
    (h2 : Drawn T2 c1 c2) (hd : ∀ k, T1 k → T2 k → False) :
    Drawn (fun k => T1 k ∨ T2 k) c c2 := by
  refine ⟨?_, ?_, ?_, ?_, ?_, ?_⟩
  · rintro k (hk | hk)
    · rw [h2.keep k (fun h => hd k hk h), h1.flip k hk]
    · rw [h2.flip k hk, h1.keep k (fun h => hd k h hk)]
  · intro k hk
    rw [h2.keep k (fun h => hk (Or.inr h)), h1.keep k (fun h => hk (Or.inl h))]
  · intro r hr
    rw [h2.regs r hr, h1.regs r hr]
  · rintro ⟨k, hk | hk, hd1⟩
    · have hv1 : c1.v 0xF = 1 := h1.hit ⟨k, hk, hd1⟩
      by_cases hh : ∃ k, T2 k ∧ c1.display k = 1
      · exact h2.hit hh
      · rw [h2.miss hh, hv1]
    · apply h2.hit
      exact ⟨k, hk, by rw [h1.keep k (fun h => hd k h hk), hd1]⟩
  · intro hno
    have hno1 : ¬ ∃ k, T1 k ∧ c.display k = 1 := fun ⟨k, hk, hd1⟩ => hno ⟨k, Or.inl hk, hd1⟩
    have hno2 : ¬ ∃ k, T2 k ∧ c1.display k = 1 := by
      rintro ⟨k, hk, hd1⟩
      rw [h1.keep k (fun h => hd k h hk)] at hd1
      exact hno ⟨k, Or.inr hk, hd1⟩
    rw [h2.miss hno2, h1.miss hno1]
  · have e1 := h1.frame
    have e2 := h2.frame
    rw [e2, e1]

theorem foldlM_drawn {α : Type} (f : CHIP8 → α → Except CHIP8 CHIP8) (T : α → Nat → Prop)
    (mem : Nat → Nat) (I : Nat) (l : List α)
    (hstep : ∀ a ∈ l, ∀ c : CHIP8, c.memory = mem → c.i = I →
      ∃ c', f c a = .ok c' ∧ Drawn (T a) c c')
    (hdisj : l.Pairwise (fun a b => ∀ k, T a k → T b k → False))
    (c : CHIP8) (hm : c.memory = mem) (hi : c.i = I) :
    ∃ c', l.foldlM f c = .ok c' ∧ Drawn (fun k => ∃ a ∈ l, T a k) c c' := by
  induction l generalizing c with
  | nil =>
    exact ⟨c, rfl, Drawn.of_empty c (by simp)⟩
  | cons a l ih =>
    obtain ⟨c1, hc1, hd1⟩ := hstep a (List.mem_cons_self a l) c hm hi
    rw [List.pairwise_cons] at hdisj
    obtain ⟨c2, hc2, hd2⟩ := ih (fun b hb => hstep b (List.mem_cons_of_mem a hb)) hdisj.2 c1
      (by rw [hd1.memory_eq, hm]) (by rw [hd1.i_eq, hi])
    refine ⟨c2, ?_, ?_⟩
    · rw [List.foldlM_cons, hc1]
      exact hc2
    · refine (hd1.comp hd2 ?_).congr ?_
      · rintro k hk ⟨b, hb, hkb⟩
        exact hdisj.1 b hb k hk hkb
      · intro k
        simp only [List.mem_cons, exists_eq_or_imp]

theorem mask_mod (i : Nat) : (0x80 >>> i) % 256 = 0x80 >>> i := by
  apply Nat.mod_eq_of_lt
  have h : 0x80 >>> i ≤ 0x80 := by
    rw [Nat.shiftRight_eq_div_pow]
    exact Nat.div_le_self _ _
  omega

theorem drawPixel_drawn (pixel x y i j : Nat) (c : CHIP8) (hb : x + j + (y + i) * 64 < 2048) :
    ∃ c', drawPixel pixel x y i j c = .ok c' ∧
      Drawn (fun k => pixel &&& (0x80 >>> i) ≠ 0 ∧ k = x + j + (y + i) * 64) c c' := by
  have hidx : ((x + j) % 65536 + (((y + i) % 65536) * 64) % 65536) % 65536
      = x + j + (y + i) * 64 := by omega
  have hlt : x + j + (y + i) * 64 < 64 * 32 := by omega
  by_cases hp : pixel &&& (0x80 >>> i) ≠ 0
  · by_cases h1 : c.display (x + j + (y + i) * 64) = 1
    · refine ⟨{ c with
          v := setAt c.v 0xF 1,
          display := setAt c.display (x + j + (y + i) * 64)
            (c.display (x + j + (y + i) * 64) ^^^ 1) }, ?_, ?_⟩
      · unfold drawPixel
        rw [mask_mod, if_pos hp]
        simp only [hidx, hlt, h1, if_true]
      · refine ⟨?_, ?_, ?_, ?_, ?_, rfl⟩
        · rintro k ⟨-, hk⟩; subst hk; simp [setAt]
        · intro k hk
          have hk2 : k ≠ x + j + (y + i) * 64 := fun h => hk ⟨hp, h⟩
          simp [setAt, hk2]
        · intro r hr; simp [setAt, hr]
        · intro _; simp [setAt]
        · intro hno; exact absurd ⟨_, ⟨hp, rfl⟩, h1⟩ hno
    · refine ⟨{ c with
          display := setAt c.display (x + j + (y + i) * 64)
            (c.display (x + j + (y + i) * 64) ^^^ 1) }, ?_, ?_⟩
      · unfold drawPixel
        rw [mask_mod, if_pos hp]
        simp only [hidx, hlt, h1, if_true, if_false]
      · refine ⟨?_, ?_, ?_, ?_, ?_, rfl⟩
        · rintro k ⟨-, hk⟩; subst hk; simp [setAt]
        · intro k hk
          have hk2 : k ≠ x + j + (y + i) * 64 := fun h => hk ⟨hp, h⟩
          simp [setAt, hk2]
        · intro r _; rfl
        · rintro ⟨k, ⟨-, hk⟩, hd⟩; subst hk; exact absurd hd h1
        · intro _; rfl
  · refine ⟨c, ?_, Drawn.of_empty c (fun _ h => hp h.1)⟩
    unfold drawPixel
    rw [mask_mod, if_neg hp]

theorem drawRow_drawn (pixel x y i : Nat) (c : CHIP8)
    (hb : ∀ j, j < 8 → x + j + (y + i) * 64 < 2048) :
    ∃ c', drawRow pixel x y i c = .ok c' ∧
      Drawn (fun k => ∃ j ∈ List.range 8,
        pixel &&& (0x80 >>> i) ≠ 0 ∧ k = x + j + (y + i) * 64) c c' := by
  unfold drawRow
  refine foldlM_drawn (fun c j => drawPixel pixel x y i j c)
    (fun j k => pixel &&& (0x80 >>> i) ≠ 0 ∧ k = x + j + (y + i) * 64)
    c.memory c.i (List.range 8) ?_ ?_ c rfl rfl
  · intro j hj c1 _ _
    exact drawPixel_drawn pixel x y i j c1 (hb j (List.mem_range.mp hj))
  · refine (List.pairwise_lt_range 8).imp ?_
    rintro a b hab k ⟨-, h1⟩ ⟨-, h2⟩
    omega

theorem drawSprite_drawn (x y n : Nat) (c : CHIP8)
    (hmem : ∀ i, i < n → c.i + i < 4096)
    (hb : ∀ i, i < n → ∀ j, j < 8 → x + j + (y + i) * 64 < 2048) :
    ∃ c', drawSprite x y n c = .ok c' ∧ Drawn (SpriteCells c.memory c.i x y n) c c' := by
  unfold drawSprite
  refine foldlM_drawn _
    (fun i k => ∃ j ∈ List.range 8,
      c.memory (i + c.i) &&& (0x80 >>> i) ≠ 0 ∧ k = x + j + (y + i) * 64)
    c.memory c.i (List.range n) ?_ ?_ c rfl rfl
  · intro i hi c1 hm1 hi1
    have hin := List.mem_range.mp hi
    have hlt := hmem i hin
    have hidx : (i + c.i) % 65536 = i + c.i := by omega
    simp only [hi1, hm1, hidx]
    have hlt2 : i + c.i < 4096 := by omega
    rw [if_pos hlt2]
    exact drawRow_drawn _ x y i c1 (hb i hin)
  · refine (List.pairwise_lt_range n).imp ?_
    rintro a b hab k ⟨j1, hj1, -, h1⟩ ⟨j2, hj2, -, h2⟩
    have := List.mem_range.mp hj1
    have := List.mem_range.mp hj2
    omega

/-- One `Cycle` on a word of family D whose sprite bytes and display cells are
in range: the machine after the step, in terms of the outcome of the loops. -/
theorem Cycle_draw (rnd : Nat) (s : CHIP8) (op : Nat) (hf : fetch s = .ok op)
    (hfam : op &&& 0xF000 = 0xD000)
    (hmem : ∀ i, i < op &&& 0x00F → s.i + i < 4096)
    (hb : ∀ i, i < op &&& 0x00F → ∀ j, j < 8 →
      s.v (opX op) + j + (s.v (opY op) + i) * 64 < 2048) :
    ∃ c1, Cycle rnd s = .ok (updateTimers (next { c1 with drawScreen := true })) ∧
      Drawn (SpriteCells s.memory s.i (s.v (opX op)) (s.v (opY op)) (op &&& 0x00F))
        { s with opcode := op, v := setAt s.v 0xF 0 } c1 := by
  obtain ⟨c1, hc1, hd⟩ := drawSprite_drawn (s.v (opX op)) (s.v (opY op)) (op &&& 0x00F)
    { s with opcode := op, v := setAt s.v 0xF 0 } hmem hb
  refine ⟨c1, ?_, hd⟩
  simp [Cycle, hf, execute, hfam, hc1]

/-- C9: for `x` and `y` other than `0xF`, with the sprite bytes and all
addressed display cells in range, two consecutive `Cycle`s on the same `Dxyn`
succeed, the first keeps `Vx`, `Vy`, `I` and memory, after the second every
display cell has the value it had before the first, and `VF` is then 1 if the
second draw turned a lit cell off and 0 otherwise. -/
theorem draw_twice_restores_display (r1 r2 : Nat) (s : CHIP8) (x y n : Nat)
    (hx : x < 15) (hy : y < 15) (hn : n < 16)
    (hf : fetch s = .ok (0xD000 + x * 0x100 + y * 0x10 + n))
    (hf2 : fetch { s with pc := s.pc + 2 } = .ok (0xD000 + x * 0x100 + y * 0x10 + n))
    (hmem : ∀ r, r < n → s.i + r < 4096)
    (hdisp : ∀ r, r < n → ∀ c, c < 8 → (s.v x + c) + (s.v y + r) * 64 < 2048) :
    ∃ s1 s2, Cycle r1 s = .ok s1 ∧ Cycle r2 s1 = .ok s2 ∧
      (s1.v x = s.v x ∧ s1.v y = s.v y ∧ s1.i = s.i ∧ s1.memory = s.memory) ∧
      (∀ k, s2.display k = s.display k) ∧
      ((∃ k, k < 2048 ∧ s1.display k ≠ 0 ∧ s2.display k = 0) → s2.v 0xF = 1) ∧
      ((¬ ∃ k, k < 2048 ∧ s1.display k ≠ 0 ∧ s2.display k = 0) → s2.v 0xF = 0) := by
  have hpc := fetch_ok_pc hf
  have hfam : (0xD000 + x * 0x100 + y * 0x10 + n) &&& 0xF000 = 0xD000 := by
    rw [land_F000]; omega
  have hnib : (0xD000 + x * 0x100 + y * 0x10 + n) &&& 0x00F = n := by
    rw [land_000F]; omega
  have hX : opX (0xD000 + x * 0x100 + y * 0x10 + n) = x := by rw [opX_eq]; omega
  have hY : opY (0xD000 + x * 0x100 + y * 0x10 + n) = y := by rw [opY_eq]; omega
  have hx15 : x ≠ 15 := by omega
  have hy15 : y ≠ 15 := by omega
  -- first draw
  obtain ⟨c1, hs1, hd1⟩ := Cycle_draw r1 s _ hf hfam (by rw [hnib]; exact hmem)
    (by rw [hnib, hX, hY]; exact hdisp)
  rw [hX, hY, hnib] at hd1
  have hm1 : c1.memory = s.memory := hd1.memory_eq
  have hi1 : c1.i = s.i := hd1.i_eq
  have hp1 : c1.pc = s.pc := hd1.pc_eq
  have hvx1 : c1.v x = s.v x := by rw [hd1.regs x hx15]; simp [setAt, hx15]
  have hvy1 : c1.v y = s.v y := by rw [hd1.regs y hy15]; simp [setAt, hy15]
  -- second draw
  have hfs1 : fetch (updateTimers (next { c1 with drawScreen := true }))
      = .ok (0xD000 + x * 0x100 + y * 0x10 + n) := by
    refine fetch_ok_of_eq ?_ ?_ hf2
    · simp only [updateTimers_pc, next, hp1]; omega
    · simp only [updateTimers_memory, next, hm1]
  obtain ⟨c2, hs2, hd2⟩ := Cycle_draw r2 _ _ hfs1 hfam
    (by rw [hnib]; simpa [next, hi1] using hmem)
    (by rw [hnib, hX, hY]; simpa [next, hvx1, hvy1] using hdisp)
  rw [hX, hY, hnib] at hd2
  simp only [updateTimers_memory, updateTimers_i, updateTimers_v, next, hm1, hi1, hvx1,
    hvy1] at hd2
  have hT : ∀ k, SpriteCells s.memory s.i (s.v x) (s.v y) n k → k < 2048 := by
    rintro k ⟨i, hi, j, hj, -, hk⟩
    have := hdisp i (List.mem_range.mp hi) j (List.mem_range.mp hj)
    omega
  have e1 : ∀ k, SpriteCells s.memory s.i (s.v x) (s.v y) n k →
      c1.display k = s.display k ^^^ 1 := fun k hk => hd1.flip k hk
  have e1' : ∀ k, ¬ SpriteCells s.memory s.i (s.v x) (s.v y) n k →
      c1.display k = s.display k := fun k hk => hd1.keep k hk
  have e2 : ∀ k, SpriteCells s.memory s.i (s.v x) (s.v y) n k →
      c2.display k = c1.display k ^^^ 1 := fun k hk => by
    have := hd2.flip k hk
    simpa using this
  have e2' : ∀ k, ¬ SpriteCells s.memory s.i (s.v x) (s.v y) n k →
      c2.display k = c1.display k := fun k hk => by
    have := hd2.keep k hk
    simpa using this
  have hback : ∀ k, c2.display k = s.display k := by
    intro k
    by_cases hk : SpriteCells s.memory s.i (s.v x) (s.v y) n k
    · rw [e2 k hk, e1 k hk, Nat.xor_assoc, Nat.xor_self, Nat.xor_zero]
    · rw [e2' k hk, e1' k hk]
  have hiff : (∃ k, k < 2048 ∧ c1.display k ≠ 0 ∧ c2.display k = 0) ↔
      ∃ k, SpriteCells s.memory s.i (s.v x) (s.v y) n k ∧ c1.display k = 1 := by
    constructor
    · rintro ⟨k, -, hne, h0⟩
      by_cases hk : SpriteCells s.memory s.i (s.v x) (s.v y) n k
      · refine ⟨k, hk, ?_⟩
        rw [hback k] at h0
        rw [e1 k hk, h0]
        rfl
      · rw [e2' k hk] at h0
        exact absurd h0 hne
    · rintro ⟨k, hk, h1⟩
      refine ⟨k, hT k hk, by rw [h1]; decide, ?_⟩
      rw [e2 k hk, h1]
      rfl
  refine ⟨_, _, hs1, hs2, ⟨?_, ?_, ?_, ?_⟩, ?_, ?_, ?_⟩
  · simpa [next] using hvx1
  · simpa [next] using hvy1
  · simpa [next] using hi1
  · simpa [next] using hm1
  · intro k
    simpa [next] using hback k
  · intro h
    have h' : ∃ k, k < 2048 ∧ c1.display k ≠ 0 ∧ c2.display k = 0 := by
      simpa [next] using h
    have := hd2.hit (by simpa [next] using hiff.mp h')
    simpa [next] using this
  · intro h
    have h' : ¬ ∃ k, k < 2048 ∧ c1.display k ≠ 0 ∧ c2.display k = 0 := by
      simpa [next] using h
    have hno : ¬ ∃ k, SpriteCells s.memory s.i (s.v x) (s.v y) n k ∧ c1.display k = 1 :=
      fun hh => h' (hiff.mpr hh)
    have := hd2.miss (by simpa [next] using hno)
    simpa [next, setAt] using this

/-- Witness of C9: `D012` twice from `0x200`, `V0 = 3`, `V1 = 2`, sprite bytes
`0x80`, `0x40` at `I = 0x300`, display cell 131 lit. -/
theorem draw_twice_restores_display_witness :
    ∃ s1 s2, Cycle 0 drawTwiceState = .ok s1 ∧ Cycle 0 s1 = .ok s2 ∧
      (s1.v 0 = drawTwiceState.v 0 ∧ s1.v 1 = drawTwiceState.v 1 ∧
        s1.i = drawTwiceState.i ∧ s1.memory = drawTwiceState.memory) ∧
      (∀ k, s2.display k = drawTwiceState.display k) ∧
      ((∃ k, k < 2048 ∧ s1.display k ≠ 0 ∧ s2.display k = 0) → s2.v 0xF = 1) ∧
      ((¬ ∃ k, k < 2048 ∧ s1.display k ≠ 0 ∧ s2.display k = 0) → s2.v 0xF = 0) :=
  draw_twice_restores_display 0 0 drawTwiceState 0 1 2 (by decide) (by decide) (by decide)
    rfl rfl
    (fun r hr => by show 0x300 + r < 4096; omega)
    (fun r hr c hc => by show (3 + c) + (2 + r) * 64 < 2048; omega)

/-! ## Array loops -/

theorem setAt_apply (a : Nat → Nat) (i v k : Nat) :
    setAt a i v k = if k = i then v else a k := rfl

theorem foldl_fill (f : Nat → Nat) (n : Nat) (a : Nat → Nat) (k : Nat) :
    ((List.range n).foldl (fun d i => setAt d i (f i)) a) k = if k < n then f k else a k := by
  induction n with
  | zero => simp
  | succ n ih =>
    rw [List.range_succ, List.foldl_append, List.foldl_cons, List.foldl_nil]
    rw [setAt_apply]
    by_cases hk : k = n
    · subst hk; simp
    · rw [if_neg hk, ih]
      by_cases hlt : k < n
      · rw [if_pos hlt, if_pos (by omega)]
      · rw [if_neg hlt, if_neg (by omega)]

theorem foldl_copy (f : Nat → Nat) (off n : Nat) (a : Nat → Nat) (k : Nat) :
    ((List.range n).foldl (fun d i => setAt d (i + off) (f i)) a) k
      = if off ≤ k ∧ k < off + n then f (k - off) else a k := by
  induction n with
  | zero =>
    have h : ¬ (off ≤ k ∧ k < off + 0) := by omega
    simp only [List.range_zero, List.foldl_nil]
    rw [if_neg h]
  | succ n ih =>
    rw [List.range_succ, List.foldl_append, List.foldl_cons, List.foldl_nil]
    rw [setAt_apply]
    by_cases hk : k = n + off
    · subst hk
      have h : off ≤ n + off ∧ n + off < off + (n + 1) := by omega
      simp [h]
    · rw [if_neg hk, ih]
      by_cases hlt : off ≤ k ∧ k < off + n
      · rw [if_pos hlt, if_pos (by omega)]
      · rw [if_neg hlt, if_neg (by omega)]

/-! ## Loading a program -/

/-- C11: `LoadROM` returns `nil` exactly when the buffer has at most
`4096 - 512 = 3584` bytes; a buffer of 3584 bytes is accepted, one of 3585 is
rejected with the size error, and a rejected load returns the size error with
the machine exactly as it was. -/
theorem load_size_limit (buffer : List Nat) (c : CHIP8) :
    ((LoadROM buffer c).1 = none ↔ buffer.length ≤ 4096 - 512) ∧
    (buffer.length = 3584 → (LoadROM buffer c).1 = none) ∧
    (buffer.length = 3585 →
      LoadROM buffer c = (some "Program size bigger than memory", c)) ∧
    ((LoadROM buffer c).1 ≠ none →
      LoadROM buffer c = (some "Program size bigger than memory", c)) := by
  by_cases h : 4096 - 512 < buffer.length
  · have e : LoadROM buffer c = (some "Program size bigger than memory", c) := by
      unfold LoadROM
      rw [if_pos h]
    rw [e]
    refine ⟨?_, ?_, ?_, ?_⟩
    · constructor
      · intro h1; cases h1
      · intro h1; omega
    · intro h1; omega
    · intro _; rfl
    · intro _; rfl
  · have e : (LoadROM buffer c).1 = none := by
      unfold LoadROM
      rw [if_neg h]
    refine ⟨?_, ?_, ?_, ?_⟩
    · constructor
      · intro _; omega
      · intro _; exact e
    · intro _; exact e
    · intro h1; omega
    · intro h1; exact absurd e h1

/-- Witness of C11: 3585 zero bytes loaded into the blank machine. -/
theorem load_size_limit_witness :
    LoadROM (List.replicate 3585 0) blank = (some "Program size bigger than memory", blank) :=
  (load_size_limit (List.replicate 3585 0) blank).2.2.1 (List.length_replicate 3585 0)

/-- C12: a load of at most 3584 bytes returns `nil`, leaves `memory[0x200+i]`
equal to byte `i` of the buffer, leaves every memory cell outside
`[0x200, 0x200+len)` unchanged, and leaves the V registers, `I`, `pc`, `sp`,
the stack, the display, the dirty flag, the timers and the keys unchanged. -/
theorem load_copies_with_frame (buffer : List Nat) (c : CHIP8)
    (h : buffer.length ≤ 3584) :
    (LoadROM buffer c).1 = none ∧
    (∀ i (hi : i < buffer.length),
      (LoadROM buffer c).2.memory (0x200 + i) = buffer.get ⟨i, hi⟩) ∧
    (∀ k, ¬ (0x200 ≤ k ∧ k < 0x200 + buffer.length) →
      (LoadROM buffer c).2.memory k = c.memory k) ∧
    (LoadROM buffer c).2.v = c.v ∧ (LoadROM buffer c).2.i = c.i ∧
    (LoadROM buffer c).2.pc = c.pc ∧ (LoadROM buffer c).2.sp = c.sp ∧
    (LoadROM buffer c).2.stack = c.stack ∧ (LoadROM buffer c).2.display = c.display ∧
    (LoadROM buffer c).2.drawScreen = c.drawScreen ∧
    (LoadROM buffer c).2.delayTimer = c.delayTimer ∧
    (LoadROM buffer c).2.soundTimer = c.soundTimer ∧ (LoadROM buffer c).2.keys = c.keys := by
  have hn : ¬ (4096 - 512 < buffer.length) := by omega
  have e : LoadROM buffer c = (none, { c with
      memory := (List.range buffer.length).foldl
        (fun d i => setAt d (i + 512) (buffer.getD i 0)) c.memory }) := by
    unfold LoadROM
    rw [if_neg hn]
  rw [e]
  refine ⟨rfl, ?_, ?_, rfl, rfl, rfl, rfl, rfl, rfl, rfl, rfl, rfl, rfl⟩
  · intro i hi
    show ((List.range buffer.length).foldl
      (fun d i => setAt d (i + 512) (buffer.getD i 0)) c.memory) (0x200 + i) = _
    rw [foldl_copy (fun i => buffer.getD i 0) 512 buffer.length c.memory (0x200 + i)]
    rw [if_pos (by omega)]
    have e2 : 0x200 + i - 512 = i := by omega
    rw [e2, List.getD_eq_getElem buffer 0 hi]
    rfl
  · intro k hk
    show ((List.range buffer.length).foldl
      (fun d i => setAt d (i + 512) (buffer.getD i 0)) c.memory) k = _
    rw [foldl_copy (fun i => buffer.getD i 0) 512 buffer.length c.memory k]
    rw [if_neg (by omega)]

/-- Witness of C12: the four bytes `60 14 A2 00` loaded into the blank machine. -/
theorem load_copies_with_frame_witness :
    (LoadROM [0x60, 0x14, 0xA2, 0x00] blank).1 = none ∧
    (∀ i (hi : i < [0x60, 0x14, 0xA2, 0x00].length),
      (LoadROM [0x60, 0x14, 0xA2, 0x00] blank).2.memory (0x200 + i)
        = [0x60, 0x14, 0xA2, 0x00].get ⟨i, hi⟩) ∧
    (∀ k, ¬ (0x200 ≤ k ∧ k < 0x200 + [0x60, 0x14, 0xA2, 0x00].length) →
      (LoadROM [0x60, 0x14, 0xA2, 0x00] blank).2.memory k = blank.memory k) ∧
    (LoadROM [0x60, 0x14, 0xA2, 0x00] blank).2.v = blank.v ∧
    (LoadROM [0x60, 0x14, 0xA2, 0x00] blank).2.i = blank.i ∧
    (LoadROM [0x60, 0x14, 0xA2, 0x00] blank).2.pc = blank.pc ∧
    (LoadROM [0x60, 0x14, 0xA2, 0x00] blank).2.sp = blank.sp ∧
    (LoadROM [0x60, 0x14, 0xA2, 0x00] blank).2.stack = blank.stack ∧
    (LoadROM [0x60, 0x14, 0xA2, 0x00] blank).2.display = blank.display ∧
    (LoadROM [0x60, 0x14, 0xA2, 0x00] blank).2.drawScreen = blank.drawScreen ∧
    (LoadROM [0x60, 0x14, 0xA2, 0x00] blank).2.delayTimer = blank.delayTimer ∧
    (LoadROM [0x60, 0x14, 0xA2, 0x00] blank).2.soundTimer = blank.soundTimer ∧
    (LoadROM [0x60, 0x14, 0xA2, 0x00] blank).2.keys = blank.keys :=
  load_copies_with_frame [0x60, 0x14, 0xA2, 0x00] blank (by decide)

/-! ## Fetch -/

theorem word_eq (a b : Nat) (ha : a < 256) (hb : b < 256) :
    ((a <<< 8) % 65536) ||| b = a * 256 + b := by
  rw [Nat.shiftLeft_eq]
  have h1 : a * 2 ^ 8 % 65536 = 2 ^ 8 * a := by omega
  rw [h1, ← Nat.mul_add_lt_is_or (by omega) a]
  omega

/-- C13: the fetch succeeds, with the big-endian word
`memory[pc]*256 + memory[pc+1]`, exactly when `pc <= 0xFFE`; with
`pc >= 0xFFF` the fetch and `Cycle` fail, and the failure leaves the machine
as it was. -/
theorem fetch_bounds_fatal (rnd : Nat) (s : CHIP8) (hwf : WF s) :
    (s.pc ≤ 0xFFE → fetch s = .ok (s.memory s.pc * 256 + s.memory (s.pc + 1))) ∧
    ((∃ op, fetch s = .ok op) ↔ s.pc ≤ 0xFFE) ∧
    (0xFFF ≤ s.pc → fetch s = .error s ∧ Cycle rnd s = .error s) := by
  have hok : s.pc ≤ 0xFFE →
      fetch s = .ok (s.memory s.pc * 256 + s.memory (s.pc + 1)) := by
    intro h
    rw [fetch_of_pc_le s h, word_eq _ _ (hwf.memory_lt _ (by omega))
      (hwf.memory_lt _ (by omega))]
  have hbad : 0xFFF ≤ s.pc → fetch s = .error s := by
    intro h
    unfold fetch
    by_cases h1 : s.pc < 4096
    · have h2 : ¬ ((s.pc + 1) % 65536 < 4096) := by omega
      rw [if_pos h1, if_neg h2]
    · rw [if_neg h1]
  refine ⟨hok, ⟨?_, fun h => ⟨_, hok h⟩⟩, fun h => ⟨hbad h, ?_⟩⟩
  · rintro ⟨op, hop⟩
    have := fetch_ok_pc hop
    omega
  · simp [Cycle, hbad h]

/-- Witness of C13: the machine with the word `6014` at `pc = 0x200`. -/
theorem fetch_bounds_fatal_witness :
    ((atWord 0x6014 (fun _ => 0)).pc ≤ 0xFFE →
      fetch (atWord 0x6014 (fun _ => 0))
        = .ok ((atWord 0x6014 (fun _ => 0)).memory (atWord 0x6014 (fun _ => 0)).pc * 256
          + (atWord 0x6014 (fun _ => 0)).memory ((atWord 0x6014 (fun _ => 0)).pc + 1))) ∧
    ((∃ op, fetch (atWord 0x6014 (fun _ => 0)) = .ok op)
      ↔ (atWord 0x6014 (fun _ => 0)).pc ≤ 0xFFE) ∧
    (0xFFF ≤ (atWord 0x6014 (fun _ => 0)).pc →
      fetch (atWord 0x6014 (fun _ => 0)) = .error (atWord 0x6014 (fun _ => 0)) ∧
      Cycle 0 (atWord 0x6014 (fun _ => 0)) = .error (atWord 0x6014 (fun _ => 0))) :=
  fetch_bounds_fatal 0 (atWord 0x6014 (fun _ => 0))
    (WF_atWord _ _ (by decide) (fun _ => by decide))

/-! ## Clear screen and the family 0 -/

theorem Cycle_cls (rnd : Nat) (s : CHIP8) (op : Nat) (hf : fetch s = .ok op)
    (hfam : op &&& 0xF000 = 0x0000) (hlow : op &&& 0x000F = 0x0000) :
    Cycle rnd s = .ok (updateTimers (next { s with
      opcode := op,
      display := (List.range (64 * 32)).foldl (fun d i => setAt d i 0) s.display,
      drawScreen := true })) := by
  simp [Cycle, hf, execute, hfam, hlow]

/-- C16: on `00E0`, `Cycle` succeeds, all 2048 display cells are 0 afterwards
and `pc` has advanced by 2; the first `Draw` afterwards returns true and the
next one returns false. -/
theorem cls_clears_and_marks_dirty (rnd : Nat) (s : CHIP8) (hf : fetch s = .ok 0x00E0) :
    ∃ s', Cycle rnd s = .ok s' ∧ (∀ k, k < 2048 → s'.display k = 0) ∧ s'.pc = s.pc + 2 ∧
      (Draw s').1 = true ∧ (Draw (Draw s').2).1 = false := by
  have hpc := fetch_ok_pc hf
  refine ⟨_, Cycle_cls rnd s 0x00E0 hf (by decide) (by decide), ?_, ?_, ?_, ?_⟩
  · intro k hk
    simp only [updateTimers_display, next]
    rw [foldl_fill (fun _ => 0) (64 * 32) s.display k, if_pos (by omega)]
  · simp only [updateTimers_pc, next]
    omega
  · simp [Draw, next]
  · simp [Draw]

/-- Witness of C16: `00E0` at `0x200` with display cell 5 lit. -/
theorem cls_clears_and_marks_dirty_witness :
    ∃ s', Cycle 0 clsState = .ok s' ∧ (∀ k, k < 2048 → s'.display k = 0) ∧
      s'.pc = clsState.pc + 2 ∧ (Draw s').1 = true ∧ (Draw (Draw s').2).1 = false :=
  cls_clears_and_marks_dirty 0 clsState rfl

/-- C20: for a word `0x0nnn`, only the low nibble is decoded. With low nibble 0
`Cycle` succeeds, clears all 2048 display cells, sets the dirty flag and
advances `pc` by 2, whatever the middle nibbles; with low nibble `0xE` it
pops: for `1 <= sp <= 16` it succeeds with `sp` decremented and `pc` set to the
popped address plus 2, and otherwise it fails. In particular the word `0x0000`
clears the display and advances `pc` by 2. -/
theorem family0_low_nibble (rnd : Nat) (s : CHIP8) (op : Nat) (hop : op < 0x1000)
    (hsp8 : s.sp < 256) (hf : fetch s = .ok op) :
    (op % 16 = 0 →
      ∃ s', Cycle rnd s = .ok s' ∧ (∀ k, k < 2048 → s'.display k = 0) ∧
        s'.drawScreen = true ∧ s'.pc = s.pc + 2 ∧ s'.sp = s.sp ∧ s'.v = s.v) ∧
    (op % 16 = 0xE → 1 ≤ s.sp → s.sp ≤ 16 →
      ∃ s', Cycle rnd s = .ok s' ∧ s'.sp = s.sp - 1 ∧
        s'.pc = (s.stack (s.sp - 1) + 2) % 65536 ∧ s'.display = s.display) ∧
    (op % 16 = 0xE → (s.sp = 0 ∨ 16 < s.sp) → ∃ e, Cycle rnd s = .error e) ∧
    (op = 0x0000 →
      ∃ s', Cycle rnd s = .ok s' ∧ (∀ k, k < 2048 → s'.display k = 0) ∧
        s'.pc = s.pc + 2) := by
  have hpc := fetch_ok_pc hf
  have hfam : op &&& 0xF000 = 0x0000 := by rw [land_F000]; omega
  have hcls : op % 16 = 0 →
      ∃ s', Cycle rnd s = .ok s' ∧ (∀ k, k < 2048 → s'.display k = 0) ∧
        s'.drawScreen = true ∧ s'.pc = s.pc + 2 ∧ s'.sp = s.sp ∧ s'.v = s.v := by
    intro h0
    have hlow : op &&& 0x000F = 0x0000 := by rw [land_000F]; exact h0
    refine ⟨_, Cycle_cls rnd s op hf hfam hlow, ?_, ?_, ?_, ?_, ?_⟩
    · intro k hk
      simp only [updateTimers_display, next]
      rw [foldl_fill (fun _ => 0) (64 * 32) s.display k, if_pos (by omega)]
    · simp [next]
    · simp only [updateTimers_pc, next]
      omega
    · simp [next]
    · simp [next]
  refine ⟨hcls, ?_, ?_, ?_⟩
  · intro hE h1 h16
    have hlow : op &&& 0x000F = 0x000E := by rw [land_000F]; exact hE
    have hsp : (s.sp + 255) % 256 = s.sp - 1 := by omega
    have hlt : s.sp - 1 < 16 := by omega
    have hstep : Cycle rnd s = .ok (updateTimers (next { s with
        opcode := op, sp := s.sp - 1, pc := s.stack (s.sp - 1) })) := by
      simp [Cycle, hf, execute, hfam, hlow, hsp, hlt]
    exact ⟨_, hstep, by simp [next], by simp [next], by simp [next]⟩
  · intro hE hbad
    have hlow : op &&& 0x000F = 0x000E := by rw [land_000F]; exact hE
    have hlt : ¬ ((s.sp + 255) % 256 < 16) := by omega
    exact ⟨{ s with opcode := op, sp := (s.sp + 255) % 256 }, by
      simp [Cycle, hf, execute, hfam, hlow, hlt]⟩
  · intro h0
    obtain ⟨s', h1, h2, -, h3, -⟩ := hcls (by omega)
    exact ⟨s', h1, h2, h3⟩

/-- Witness of C20: zero-filled memory at `pc = 0x200`, display cell 5 lit. -/
theorem family0_low_nibble_witness :
    ∃ s', Cycle 0 zeroWordState = .ok s' ∧ (∀ k, k < 2048 → s'.display k = 0) ∧
      s'.pc = zeroWordState.pc + 2 :=
  (family0_low_nibble 0 zeroWordState 0x0000 (by decide) (by decide) rfl).2.2.2 rfl

/-! ## Add byte -/

/-- C17: on `7xkk`, `Cycle` succeeds with `Vx = (Vx + kk) mod 256` and every
other V register unchanged, so no flag is set; and `6xkk` followed by `7x00`
leaves `Vx = kk`. -/
theorem add_byte_wraps (r1 r2 : Nat) (s : CHIP8) (x kk : Nat) (hx : x < 16)
    (hkk : kk < 256) :
    (fetch s = .ok (0x7000 + x * 0x100 + kk) →
      ∃ s', Cycle r1 s = .ok s' ∧ s'.v x = (s.v x + kk) % 256 ∧
        ∀ r, r ≠ x → s'.v r = s.v r) ∧
    (fetch s = .ok (0x6000 + x * 0x100 + kk) →
      fetch { s with pc := s.pc + 2 } = .ok (0x7000 + x * 0x100 + 0x00) →
      ∃ s1 s2, Cycle r1 s = .ok s1 ∧ Cycle r2 s1 = .ok s2 ∧ s2.v x = kk) := by
  have hadd : ∀ (r : Nat) (t : CHIP8) (b : Nat), b < 256 →
      fetch t = .ok (0x7000 + x * 0x100 + b) →
      Cycle r t = .ok (updateTimers (next { t with
        opcode := 0x7000 + x * 0x100 + b, v := setAt t.v x ((t.v x + b) % 256) })) := by
    intro r t b hb hf
    have hfam : (0x7000 + x * 0x100 + b) &&& 0xF000 = 0x7000 := by rw [land_F000]; omega
    have hk : (0x7000 + x * 0x100 + b) &&& 0x00FF = b := by rw [land_00FF]; omega
    have hX : opX (0x7000 + x * 0x100 + b) = x := by rw [opX_eq]; omega
    have hb2 : b % 256 = b := by omega
    simp [Cycle, hf, execute, hfam, hk, hX, hb2]
  refine ⟨?_, ?_⟩
  · intro hf
    refine ⟨_, hadd r1 s kk hkk hf, ?_, ?_⟩
    · simp [next, setAt]
    · intro r hr
      simp [next, setAt, hr]
  · intro hf hf2
    have hpc := fetch_ok_pc hf
    have hfam : (0x6000 + x * 0x100 + kk) &&& 0xF000 = 0x6000 := by rw [land_F000]; omega
    have hk : (0x6000 + x * 0x100 + kk) &&& 0x00FF = kk := by rw [land_00FF]; omega
    have hX : opX (0x6000 + x * 0x100 + kk) = x := by rw [opX_eq]; omega
    have hkk2 : kk % 256 = kk := by omega
    have hld : Cycle r1 s = .ok (updateTimers (next { s with
        opcode := 0x6000 + x * 0x100 + kk, v := setAt s.v x kk })) := by
      simp [Cycle, hf, execute, hfam, hk, hX, hkk2]
    have hf3 : fetch (updateTimers (next { s with
        opcode := 0x6000 + x * 0x100 + kk, v := setAt s.v x kk }))
        = .ok (0x7000 + x * 0x100 + 0x00) := by
      refine fetch_ok_of_eq ?_ ?_ hf2
      · simp only [updateTimers_pc, next]; omega
      · simp [next]
    refine ⟨_, _, hld, hadd r2 _ 0x00 (by decide) hf3, ?_⟩
    simp [next, setAt]
    omega

/-- Witness of C17: `7001` with `V0 = 255` and `VF = 9`: `V0` becomes 0. -/
theorem add_byte_wraps_witness :
    ∃ s', Cycle 0 addByteState = .ok s' ∧ s'.v 0 = (addByteState.v 0 + 1) % 256 ∧
      ∀ r, r ≠ 0 → s'.v r = addByteState.v r :=
  (add_byte_wraps 0 0 addByteState 0 1 (by decide) (by decide)).1 rfl

/-! ## The key scan -/

theorem scan_none (x : Nat) (l : List Nat) (c : CHIP8) (b : Bool)
    (h : ∀ i ∈ l, c.keys i = 0) :
    l.foldl (fun (st : CHIP8 × Bool) i =>
      if st.1.keys i ≠ 0 then ({ st.1 with v := setAt st.1.v x (i % 256) }, true) else st)
      (c, b) = (c, b) := by
  induction l with
  | nil => rfl
  | cons a l ih =>
    have ha : c.keys a = 0 := h a (List.mem_cons_self a l)
    rw [List.foldl_cons]
    simp only [ha, ne_eq, not_true_eq_false, if_false]
    exact ih (fun i hi => h i (List.mem_cons_of_mem a hi))

theorem scan_one (x : Nat) (l : List Nat) (c : CHIP8) (b : Bool) (k : Nat)
    (hnd : l.Nodup) (hk : k ∈ l) (hkey : c.keys k ≠ 0)
    (h0 : ∀ i ∈ l, i ≠ k → c.keys i = 0) :
    l.foldl (fun (st : CHIP8 × Bool) i =>
      if st.1.keys i ≠ 0 then ({ st.1 with v := setAt st.1.v x (i % 256) }, true) else st)
      (c, b) = ({ c with v := setAt c.v x (k % 256) }, true) := by
  induction l generalizing b with
  | nil => cases hk
  | cons a l ih =>
    rw [List.nodup_cons] at hnd
    rw [List.foldl_cons]
    by_cases hak : a = k
    · subst hak
      simp only [hkey, ne_eq, not_false_eq_true, if_true]
      apply scan_none
      intro i hi
      have hne : i ≠ a := fun e => hnd.1 (e ▸ hi)
      exact h0 i (List.mem_cons_of_mem a hi) hne
    · have ha : c.keys a = 0 := h0 a (List.mem_cons_self a l) hak
      simp only [ha, ne_eq, not_true_eq_false, if_false]
      have hk2 : k ∈ l := by
        rcases List.mem_cons.mp hk with e | e
        · exact absurd e.symm hak
        · exact e
      exact ih b hnd.2 hk2 (fun i hi => h0 i (List.mem_cons_of_mem a hi))

theorem scan_frame (x : Nat) (l : List Nat) (c : CHIP8) (b : Bool) :
    ∃ v', l.foldl (fun (st : CHIP8 × Bool) i =>
      if st.1.keys i ≠ 0 then ({ st.1 with v := setAt st.1.v x (i % 256) }, true) else st)
      (c, b) = ({ c with v := v' }, b || decide (∃ i ∈ l, c.keys i ≠ 0)) := by
  induction l generalizing c b with
  | nil => exact ⟨c.v, by simp⟩
  | cons a l ih =>
    rw [List.foldl_cons]
    by_cases ha : c.keys a = 0
    · simp only [ha, ne_eq, not_true_eq_false, if_false]
      obtain ⟨v', hv⟩ := ih c b
      refine ⟨v', ?_⟩
      rw [hv]
      simp [ha]
    · simp only [ha, ne_eq, not_false_eq_true, if_true]
      obtain ⟨v', hv⟩ := ih { c with v := setAt c.v x (a % 256) } true
      refine ⟨v', ?_⟩
      rw [hv]
      simp [ha]

theorem scanKeys_frame (x : Nat) (c : CHIP8) :
    ∃ v', scanKeys x c = ({ c with v := v' }, decide (∃ i ∈ List.range 16, c.keys i ≠ 0)) := by
  obtain ⟨v', hv⟩ := scan_frame x (List.range 16) c false
  exact ⟨v', by rw [scanKeys, hv]; simp⟩

theorem scanKeys_none (x : Nat) (c : CHIP8) (h : ∀ i, i < 16 → c.keys i = 0) :
    scanKeys x c = (c, false) :=
  scan_none x (List.range 16) c false (fun i hi => h i (List.mem_range.mp hi))

theorem scanKeys_one (x : Nat) (c : CHIP8) (k : Nat) (hk : k < 16) (hkey : c.keys k ≠ 0)
    (h0 : ∀ i, i < 16 → i ≠ k → c.keys i = 0) :
    scanKeys x c = ({ c with v := setAt c.v x k }, true) := by
  have h := scan_one x (List.range 16) c false k (List.nodup_range 16)
    (List.mem_range.mpr hk) hkey (fun i hi => h0 i (List.mem_range.mp hi))
  have hk2 : k % 256 = k := by omega
  rw [hk2] at h
  exact h

/-! ## Waiting for a key -/

theorem Cycle_wait (rnd : Nat) (s : CHIP8) (x : Nat) (hx : x < 16)
    (hf : fetch s = .ok (0xF00A + x * 0x100)) (hkeys : ∀ i, i < 16 → s.keys i = 0) :
    Cycle rnd s = .ok { s with opcode := 0xF00A + x * 0x100 } := by
  have hfam : (0xF00A + x * 0x100) &&& 0xF000 = 0xF000 := by rw [land_F000]; omega
  have hlow : (0xF00A + x * 0x100) &&& 0x00FF = 0x000A := by rw [land_00FF]; omega
  have hscan := scanKeys_none (opX (0xF00A + x * 0x100))
    { s with opcode := 0xF00A + x * 0x100 } hkeys
  simp [Cycle, hf, execute, hfam, hlow, hscan]

theorem run_wait (rnds : List Nat) (x : Nat) (hx : x < 16) (s : CHIP8)
    (hf : fetch s = .ok (0xF00A + x * 0x100)) (hkeys : ∀ i, i < 16 → s.keys i = 0) :
    ∃ t, run rnds s = .ok t ∧ t.pc = s.pc ∧ t.v = s.v ∧ t.memory = s.memory ∧
      t.keys = s.keys := by
  induction rnds generalizing s with
  | nil => exact ⟨s, rfl, rfl, rfl, rfl, rfl⟩
  | cons r rs ih =>
    have hf1 : fetch { s with opcode := 0xF00A + x * 0x100 } = .ok (0xF00A + x * 0x100) :=
      @fetch_ok_of_eq s _ _ rfl rfl hf
    obtain ⟨t, ht, h1, h2, h3, h4⟩ := ih { s with opcode := 0xF00A + x * 0x100 } hf1 hkeys
    refine ⟨t, ?_, h1, h2, h3, h4⟩
    unfold run at ht ⊢
    rw [List.foldlM_cons, Cycle_wait r s x hx hf hkeys]
    exact ht

/-- C14: from a machine whose word at `pc` is `Fx0A` and in which no key is
pressed, any number of consecutive `Cycle`s succeed and leave `pc` and `Vx`
unchanged; after `Key(k, true)` for a `k` in 0..15, the next `Cycle` sets
`Vx = k` and advances `pc` by 2. -/
theorem key_wait_then_resume (rnds : List Nat) (r : Nat) (s : CHIP8) (x k : Nat)
    (hx : x < 16) (hk : k < 16) (hf : fetch s = .ok (0xF00A + x * 0x100))
    (hkeys : ∀ i, i < 16 → s.keys i = 0) :
    ∃ t, run rnds s = .ok t ∧ t.pc = s.pc ∧ t.v x = s.v x ∧
      ∃ t1, Key k true t = .ok t1 ∧
        ∃ t2, Cycle r t1 = .ok t2 ∧ t2.v x = k ∧ t2.pc = s.pc + 2 := by
  have hpc := fetch_ok_pc hf
  obtain ⟨t, ht, h1, h2, h3, h4⟩ := run_wait rnds x hx s hf hkeys
  refine ⟨t, ht, h1, by rw [h2], { t with keys := setAt t.keys k 1 }, ?_, ?_⟩
  · simp [Key, hk]
  · have hfam : (0xF00A + x * 0x100) &&& 0xF000 = 0xF000 := by rw [land_F000]; omega
    have hlow : (0xF00A + x * 0x100) &&& 0x00FF = 0x000A := by rw [land_00FF]; omega
    have hX : opX (0xF00A + x * 0x100) = x := by rw [opX_eq]; omega
    have hft : fetch { t with keys := setAt t.keys k 1 } = .ok (0xF00A + x * 0x100) :=
      fetch_ok_of_eq h1 h3 hf
    have hscan := scanKeys_one x
      { t with opcode := 0xF00A + x * 0x100, keys := setAt t.keys k 1 } k hk
      (by simp [setAt])
      (fun i hi hne => by simp only [setAt, hne, if_false, h4]; exact hkeys i hi)
    have hstep : Cycle r { t with keys := setAt t.keys k 1 } = .ok (updateTimers (next
        { t with opcode := 0xF00A + x * 0x100, keys := setAt t.keys k 1,
                 v := setAt t.v x k })) := by
      simp [Cycle, hft, execute, hfam, hlow, hX, hscan]
    refine ⟨_, hstep, ?_, ?_⟩
    · simp [next, setAt]
    · simp only [updateTimers_pc, next, h1]
      omega

/-- Witness of C14: `F00A` at `0x200`, three waiting `Cycle`s, then key 7. -/
theorem key_wait_then_resume_witness :
    ∃ t, run [0, 0, 0] keyWaitState = .ok t ∧ t.pc = keyWaitState.pc ∧
      t.v 0 = keyWaitState.v 0 ∧
      ∃ t1, Key 7 true t = .ok t1 ∧
        ∃ t2, Cycle 0 t1 = .ok t2 ∧ t2.v 0 = 7 ∧ t2.pc = keyWaitState.pc + 2 :=
  key_wait_then_resume [0, 0, 0] 0 keyWaitState 0 7 (by decide) (by decide) rfl
    (fun _ _ => rfl)

/-! ## What the instruction bodies keep -/

theorem Kept.refl (c : CHIP8) : Kept c c := ⟨rfl, rfl, rfl, fun h => h⟩

theorem Kept.trans {c c1 c2 : CHIP8} (h1 : Kept c c1) (h2 : Kept c1 c2) : Kept c c2 :=
  ⟨by rw [h2.sp_eq, h1.sp_eq], by rw [h2.delay_eq, h1.delay_eq],
    by rw [h2.sound_eq, h1.sound_eq], fun h => h2.binary (h1.binary h)⟩

theorem foldlM_kept {α : Type} (f : CHIP8 → α → Except CHIP8 CHIP8)
    (hstep : ∀ c a c', f c a = .ok c' → Kept c c') (l : List α) (c c' : CHIP8)
    (h : l.foldlM f c = .ok c') : Kept c c' := by
  induction l generalizing c with
  | nil =>
    cases h
    exact Kept.refl _
  | cons a l ih =>
    rw [List.foldlM_cons] at h
    cases hfa : f c a with
    | error e =>
      rw [hfa] at h
      cases h
    | ok c1 =>
      rw [hfa] at h
      exact (hstep c a c1 hfa).trans (ih c1 h)

theorem drawPixel_kept (pixel x y i j : Nat) (c c' : CHIP8)
    (h : drawPixel pixel x y i j c = .ok c') : Kept c c' := by
  by_cases h1 : pixel &&& ((0x80 >>> i) % 256) ≠ 0
  · by_cases h2 : ((x + j) % 65536 + (((y + i) % 65536) * 64) % 65536) % 65536 < 64 * 32
    · by_cases h3 : c.display
          (((x + j) % 65536 + (((y + i) % 65536) * 64) % 65536) % 65536) = 1
      · unfold drawPixel at h
        rw [if_pos h1] at h
        simp only [h2, h3, if_true, Except.ok.injEq] at h
        subst h
        refine ⟨rfl, rfl, rfl, ?_⟩
        intro hb k hk
        show setAt c.display _ _ k = 0 ∨ setAt c.display _ _ k = 1
        rw [setAt_apply]
        split
        · left; rfl
        · exact hb k hk
      · unfold drawPixel at h
        rw [if_pos h1] at h
        simp only [h2, h3, if_true, if_false, Except.ok.injEq] at h
        subst h
        refine ⟨rfl, rfl, rfl, ?_⟩
        intro hb k hk
        show setAt c.display _ _ k = 0 ∨ setAt c.display _ _ k = 1
        rw [setAt_apply]
        split
        · rcases hb _ h2 with e | e
          · right; rw [e]; rfl
          · exact absurd e h3
        · exact hb k hk
    · unfold drawPixel at h
      rw [if_pos h1] at h
      simp only [h2, if_false] at h
      cases h
  · unfold drawPixel at h
    rw [if_neg h1] at h
    cases h
    exact Kept.refl _

theorem drawSprite_kept (x y n : Nat) (c c' : CHIP8) (h : drawSprite x y n c = .ok c') :
    Kept c c' := by
  refine foldlM_kept _ ?_ _ c c' h
  intro c1 i c2 h2
  split_ifs at h2
  exact foldlM_kept _ (fun c3 j c4 h4 => drawPixel_kept _ x y i j c3 c4 h4) _ c1 c2 h2

theorem storeMem_kept (a val : Nat) (c c' : CHIP8) (h : storeMem a val c = .ok c') :
    Kept c c' := by
  unfold storeMem at h
  split_ifs at h
  cases h
  exact ⟨rfl, rfl, rfl, fun hb => hb⟩

theorem storeRegs_kept (x : Nat) (c c' : CHIP8) (h : storeRegs x c = .ok c') : Kept c c' :=
  foldlM_kept _ (fun c1 _ c2 h2 => storeMem_kept _ _ c1 c2 h2) _ c c' h

theorem loadRegs_kept (x : Nat) (c c' : CHIP8) (h : loadRegs x c = .ok c') : Kept c c' := by
  refine foldlM_kept _ ?_ _ c c' h
  intro c1 _ c2 h2
  split_ifs at h2
  cases h2
  exact ⟨rfl, rfl, rfl, fun hb => hb⟩

/-! ## Every instruction -/

theorem StepKept.of_fields {c c1 : CHIP8} (hfam : c.opcode &&& 0xF000 ≠ 0xF000)
    (hsp : c1.sp = c.sp) (hd : c1.display = c.display) (hdt : c1.delayTimer = c.delayTimer)
    (hst : c1.soundTimer = c.soundTimer) : StepKept c true c1 := by
  refine ⟨fun h => by rw [hsp]; exact h, fun h => by rw [hd]; exact h, ?_, ?_, ?_⟩
  · rw [hdt, if_neg (fun h => hfam h.1)]
  · rw [hst, if_neg (fun h => hfam h.1)]
  · intro h; cases h

theorem execute_simple_families (rnd : Nat) (c : CHIP8) (b : Bool) (c1 : CHIP8)
    (h : execute rnd c = .ok (b, c1)) (q : Nat) (hq : c.opcode &&& 0xF000 = q * 4096)
    (hmem : q ∈ [1, 3, 4, 5, 6, 7, 9, 10, 11, 12]) : StepKept c b c1 := by
  simp only [List.mem_cons, List.mem_singleton, List.not_mem_nil, or_false] at hmem
  have hF : c.opcode &&& 0xF000 ≠ 0xF000 := by
    rw [hq]; rcases hmem with e | e | e | e | e | e | e | e | e | e <;> subst e <;> decide
  rcases hmem with e | e | e | e | e | e | e | e | e | e <;> subst e <;>
    simp [execute, hq] at h <;> obtain ⟨rfl, rfl⟩ := h <;>
    first
      | exact StepKept.of_fields hF rfl rfl rfl rfl
      | (unfold skipIf; split <;> exact StepKept.of_fields hF rfl rfl rfl rfl)

theorem StepKept.of_kept {c c1 : CHIP8} (hk : Kept c c1)
    (h15 : ¬ (c.opcode &&& 0xF000 = 0xF000 ∧ c.opcode &&& 0x00FF = 0x0015))
    (h18 : ¬ (c.opcode &&& 0xF000 = 0xF000 ∧ c.opcode &&& 0x00FF = 0x0018)) :
    StepKept c true c1 := by
  refine ⟨fun h => by rw [hk.sp_eq]; exact h, hk.binary, ?_, ?_, ?_⟩
  · rw [hk.delay_eq, if_neg h15]
  · rw [hk.sound_eq, if_neg h18]
  · intro h; cases h

theorem execute_family_0 (rnd : Nat) (c : CHIP8) (b : Bool) (c1 : CHIP8)
    (h : execute rnd c = .ok (b, c1)) (hq : c.opcode &&& 0xF000 = 0x0000) :
    StepKept c b c1 := by
  have h15 : ¬ (c.opcode &&& 0xF000 = 0xF000 ∧ c.opcode &&& 0x00FF = 0x0015) := by
    rw [hq]; exact fun h => absurd h.1 (by decide)
  have h18 : ¬ (c.opcode &&& 0xF000 = 0xF000 ∧ c.opcode &&& 0x00FF = 0x0018) := by
    rw [hq]; exact fun h => absurd h.1 (by decide)
  by_cases h0 : c.opcode &&& 0x000F = 0x0000
  · simp only [execute, hq, h0, if_true, Except.ok.injEq, Prod.mk.injEq] at h
    obtain ⟨rfl, rfl⟩ := h
    refine StepKept.of_kept ⟨rfl, rfl, rfl, ?_⟩ h15 h18
    intro _ k hk
    left
    simp only [next]
    rw [foldl_fill (fun _ => 0) _ c.display k, if_pos hk]
  · by_cases hE : c.opcode &&& 0x000F = 0x000E
    · by_cases hsp : (c.sp + 255) % 256 < 16
      · simp [execute, hq, hE, hsp] at h
        obtain ⟨rfl, rfl⟩ := h
        refine ⟨fun _ => ?_, fun hb => hb, ?_, ?_, ?_⟩
        · show (c.sp + 255) % 256 ≤ 16
          omega
        · rw [if_neg h15]; rfl
        · rw [if_neg h18]; rfl
        · intro hh; cases hh
      · simp [execute, hq, hE, hsp] at h
    · simp [execute, hq, h0, hE] at h
      obtain ⟨rfl, rfl⟩ := h
      exact StepKept.of_kept (Kept.refl _) h15 h18

theorem execute_family_2 (rnd : Nat) (c : CHIP8) (b : Bool) (c1 : CHIP8)
    (h : execute rnd c = .ok (b, c1)) (hq : c.opcode &&& 0xF000 = 0x2000) :
    StepKept c b c1 := by
  have h15 : ¬ (c.opcode &&& 0xF000 = 0xF000 ∧ c.opcode &&& 0x00FF = 0x0015) := by
    rw [hq]; exact fun h => absurd h.1 (by decide)
  have h18 : ¬ (c.opcode &&& 0xF000 = 0xF000 ∧ c.opcode &&& 0x00FF = 0x0018) := by
    rw [hq]; exact fun h => absurd h.1 (by decide)
  by_cases hsp : c.sp < 16
  · simp [execute, hq, hsp] at h
    obtain ⟨rfl, rfl⟩ := h
    refine ⟨fun _ => ?_, fun hb => hb, ?_, ?_, ?_⟩
    · show (c.sp + 1) % 256 ≤ 16
      omega
    · rw [if_neg h15]
    · rw [if_neg h18]
    · intro hh; cases hh
  · simp [execute, hq, hsp] at h

theorem execute_family_8 (rnd : Nat) (c : CHIP8) (b : Bool) (c1 : CHIP8)
    (h : execute rnd c = .ok (b, c1)) (hq : c.opcode &&& 0xF000 = 0x8000) :
    StepKept c b c1 := by
  have hF : c.opcode &&& 0xF000 ≠ 0xF000 := by rw [hq]; decide
  have hl := land_000F c.opcode
  have hlt : c.opcode % 16 < 16 := Nat.mod_lt _ (by decide)
  generalize c.opcode % 16 = l at hl hlt
  interval_cases l <;> simp [execute, hq, hl] at h <;> obtain ⟨rfl, rfl⟩ := h <;>
    exact StepKept.of_fields hF rfl rfl rfl rfl

theorem execute_family_D (rnd : Nat) (c : CHIP8) (b : Bool) (c1 : CHIP8)
    (h : execute rnd c = .ok (b, c1)) (hq : c.opcode &&& 0xF000 = 0xD000) :
    StepKept c b c1 := by
  have h15 : ¬ (c.opcode &&& 0xF000 = 0xF000 ∧ c.opcode &&& 0x00FF = 0x0015) := by
    rw [hq]; exact fun h => absurd h.1 (by decide)
  have h18 : ¬ (c.opcode &&& 0xF000 = 0xF000 ∧ c.opcode &&& 0x00FF = 0x0018) := by
    rw [hq]; exact fun h => absurd h.1 (by decide)
  cases hds : drawSprite (c.v (opX c.opcode)) (c.v (opY c.opcode)) (c.opcode &&& 0x00F)
      { c with v := setAt c.v 0xF 0 } with
  | error e => simp [execute, hq, hds] at h
  | ok cd =>
    simp [execute, hq, hds] at h
    obtain ⟨rfl, rfl⟩ := h
    have hk := drawSprite_kept _ _ _ _ _ hds
    exact StepKept.of_kept ⟨hk.sp_eq, hk.delay_eq, hk.sound_eq, hk.binary⟩ h15 h18

theorem execute_family_E (rnd : Nat) (c : CHIP8) (b : Bool) (c1 : CHIP8)
    (h : execute rnd c = .ok (b, c1)) (hq : c.opcode &&& 0xF000 = 0xE000) :
    StepKept c b c1 := by
  have hF : c.opcode &&& 0xF000 ≠ 0xF000 := by rw [hq]; decide
  by_cases h9E : c.opcode &&& 0x00FF = 0x009E
  · by_cases hv : c.v (opX c.opcode) < 16
    · simp [execute, hq, h9E, hv] at h
      obtain ⟨rfl, rfl⟩ := h
      unfold skipIf
      split <;> exact StepKept.of_fields hF rfl rfl rfl rfl
    · simp [execute, hq, h9E, hv] at h
  · by_cases hA1 : c.opcode &&& 0x00FF = 0x00A1
    · by_cases hv : c.v (opX c.opcode) < 16
      · simp [execute, hq, hA1, hv] at h
        obtain ⟨rfl, rfl⟩ := h
        unfold skipIf
        split <;> exact StepKept.of_fields hF rfl rfl rfl rfl
      · simp [execute, hq, hA1, hv] at h
    · simp [execute, hq, h9E, hA1] at h
      obtain ⟨rfl, rfl⟩ := h
      exact StepKept.of_fields hF rfl rfl rfl rfl

theorem execute_family_F (rnd : Nat) (c : CHIP8) (b : Bool) (c1 : CHIP8)
    (h : execute rnd c = .ok (b, c1)) (hq : c.opcode &&& 0xF000 = 0xF000) :
    StepKept c b c1 := by
  by_cases h07 : c.opcode &&& 0x00FF = 0x0007
  · simp [execute, hq, h07] at h
    obtain ⟨rfl, rfl⟩ := h
    exact StepKept.of_kept ⟨rfl, rfl, rfl, fun hb => hb⟩ (by rw [h07]; simp) (by rw [h07]; simp)
  by_cases h0A : c.opcode &&& 0x00FF = 0x000A
  · obtain ⟨v', hv⟩ := scanKeys_frame (opX c.opcode) c
    by_cases hz : ∀ x, x < 16 → c.keys x = 0
    · simp [execute, hq, h0A, hv] at h
      rw [if_pos hz] at h
      simp at h
      obtain ⟨rfl, rfl⟩ := h
      refine ⟨fun hs => hs, fun hb => hb, ?_, ?_, ?_⟩
      · rw [if_neg (by rw [h0A]; simp)]
      · rw [if_neg (by rw [h0A]; simp)]
      · intro _
        exact ⟨hq, h0A, hz⟩
    · simp [execute, hq, h0A, hv] at h
      rw [if_neg hz] at h
      simp at h
      obtain ⟨rfl, rfl⟩ := h
      exact StepKept.of_kept ⟨rfl, rfl, rfl, fun hb => hb⟩ (by rw [h0A]; simp)
        (by rw [h0A]; simp)
  by_cases h15 : c.opcode &&& 0x00FF = 0x0015
  · simp [execute, hq, h15] at h
    obtain ⟨rfl, rfl⟩ := h
    refine ⟨fun hs => hs, fun hb => hb, ?_, ?_, ?_⟩
    · rw [if_pos ⟨hq, h15⟩]; rfl
    · rw [if_neg (by rw [h15]; simp)]; rfl
    · intro hh; cases hh
  by_cases h18 : c.opcode &&& 0x00FF = 0x0018
  · simp [execute, hq, h18] at h
    obtain ⟨rfl, rfl⟩ := h
    refine ⟨fun hs => hs, fun hb => hb, ?_, ?_, ?_⟩
    · rw [if_neg (by rw [h18]; simp)]; rfl
    · rw [if_pos ⟨hq, h18⟩]; rfl
    · intro hh; cases hh
  have n15 : ¬ (c.opcode &&& 0xF000 = 0xF000 ∧ c.opcode &&& 0x00FF = 0x0015) :=
    fun hh => h15 hh.2
  have n18 : ¬ (c.opcode &&& 0xF000 = 0xF000 ∧ c.opcode &&& 0x00FF = 0x0018) :=
    fun hh => h18 hh.2
  by_cases h1E : c.opcode &&& 0x00FF = 0x001E
  · simp [execute, hq, h1E] at h
    obtain ⟨rfl, rfl⟩ := h
    exact StepKept.of_kept ⟨rfl, rfl, rfl, fun hb => hb⟩ n15 n18
  by_cases h29 : c.opcode &&& 0x00FF = 0x0029
  · simp [execute, hq, h29] at h
    obtain ⟨rfl, rfl⟩ := h
    exact StepKept.of_kept ⟨rfl, rfl, rfl, fun hb => hb⟩ n15 n18
  by_cases h33 : c.opcode &&& 0x00FF = 0x0033
  · cases e1 : storeMem c.i (c.v (opX c.opcode) / 100) c with
    | error e => simp [execute, hq, h33, e1] at h
    | ok d1 =>
      cases e2 : storeMem ((d1.i + 1) % 65536) ((d1.v (opX c.opcode) / 10) % 10) d1 with
      | error e => simp [execute, hq, h33, e1, e2] at h
      | ok d2 =>
        cases e3 : storeMem ((d2.i + 2) % 65536) ((d2.v (opX c.opcode) % 100) / 10) d2 with
        | error e => simp [execute, hq, h33, e1, e2, e3] at h
        | ok d3 =>
          simp [execute, hq, h33, e1, e2, e3] at h
          obtain ⟨rfl, rfl⟩ := h
          have k3 := ((storeMem_kept _ _ _ _ e1).trans (storeMem_kept _ _ _ _ e2)).trans
            (storeMem_kept _ _ _ _ e3)
          exact StepKept.of_kept ⟨k3.sp_eq, k3.delay_eq, k3.sound_eq, k3.binary⟩ n15 n18
  by_cases h55 : c.opcode &&& 0x00FF = 0x0055
  · cases e1 : storeRegs (opX c.opcode) c with
    | error e => simp [execute, hq, h55, e1] at h
    | ok d1 =>
      simp [execute, hq, h55, e1] at h
      obtain ⟨rfl, rfl⟩ := h
      have k1 := storeRegs_kept _ _ _ e1
      exact StepKept.of_kept ⟨k1.sp_eq, k1.delay_eq, k1.sound_eq, k1.binary⟩ n15 n18
  by_cases h65 : c.opcode &&& 0x00FF = 0x0065
  · cases e1 : loadRegs (opX c.opcode) c with
    | error e => simp [execute, hq, h65, e1] at h
    | ok d1 =>
      simp [execute, hq, h65, e1] at h
      obtain ⟨rfl, rfl⟩ := h
      have k1 := loadRegs_kept _ _ _ e1
      exact StepKept.of_kept ⟨k1.sp_eq, k1.delay_eq, k1.sound_eq, k1.binary⟩ n15 n18
  simp [execute, hq, h07, h0A, h15, h18, h1E, h29, h33, h55, h65] at h
  obtain ⟨rfl, rfl⟩ := h
  exact StepKept.of_kept (Kept.refl _) n15 n18

/-- Whatever word is in `opcode`, a run of the `switch` that does not panic
satisfies `StepKept`. -/
theorem execute_kept (rnd : Nat) (c : CHIP8) (b : Bool) (c1 : CHIP8)
    (h : execute rnd c = .ok (b, c1)) : StepKept c b c1 := by
  have hq := land_F000 c.opcode
  have hlt : c.opcode / 4096 % 16 < 16 := Nat.mod_lt _ (by decide)
  generalize c.opcode / 4096 % 16 = q at hq hlt
  interval_cases q
  · exact execute_family_0 rnd c b c1 h hq
  · exact execute_simple_families rnd c b c1 h 1 hq (by decide)
  · exact execute_family_2 rnd c b c1 h hq
  · exact execute_simple_families rnd c b c1 h 3 hq (by decide)
  · exact execute_simple_families rnd c b c1 h 4 hq (by decide)
  · exact execute_simple_families rnd c b c1 h 5 hq (by decide)
  · exact execute_simple_families rnd c b c1 h 6 hq (by decide)
  · exact execute_simple_families rnd c b c1 h 7 hq (by decide)
  · exact execute_family_8 rnd c b c1 h hq
  · exact execute_simple_families rnd c b c1 h 9 hq (by decide)
  · exact execute_simple_families rnd c b c1 h 10 hq (by decide)
  · exact execute_simple_families rnd c b c1 h 11 hq (by decide)
  · exact execute_simple_families rnd c b c1 h 12 hq (by decide)
  · exact execute_family_D rnd c b c1 h hq
  · exact execute_family_E rnd c b c1 h hq
  · exact execute_family_F rnd c b c1 h hq

/-! ## Every successful step -/

theorem Cycle_ok_inv (rnd : Nat) (s s' : CHIP8) (h : Cycle rnd s = .ok s') :
    ∃ op b c1, fetch s = .ok op ∧ execute rnd { s with opcode := op } = .ok (b, c1) ∧
      ((b = true ∧ s' = updateTimers c1) ∨ (b = false ∧ s' = c1)) := by
  cases hf : fetch s with
  | error e => simp [Cycle, hf] at h
  | ok op =>
    cases he : execute rnd { s with opcode := op } with
    | error e => simp [Cycle, hf, he] at h
    | ok p =>
      obtain ⟨b, c1⟩ := p
      cases b
      · simp [Cycle, hf, he] at h
        exact ⟨op, false, c1, rfl, he, Or.inr ⟨rfl, h.symm⟩⟩
      · simp [Cycle, hf, he] at h
        exact ⟨op, true, c1, rfl, he, Or.inl ⟨rfl, h.symm⟩⟩

/-- C15: after every successful `Cycle` other than an `Fx0A` that finds no
key pressed, the delay timer is one tick below the value it has after the
instruction's own effect (`Vx` for `Fx15`, the old value otherwise), and the
same holds for the sound timer with `Fx18`; in particular `Fx15` with
`Vx > 0` ends with delay timer `Vx - 1`. -/
theorem timers_after_step (rnd : Nat) (s s' : CHIP8) (op : Nat) (hf : fetch s = .ok op)
    (h : Cycle rnd s = .ok s')
    (hwait : ¬ (op &&& 0xF000 = 0xF000 ∧ op &&& 0x00FF = 0x000A ∧
      ∀ i, i < 16 → s.keys i = 0)) :
    s'.delayTimer = tick (if op &&& 0xF000 = 0xF000 ∧ op &&& 0x00FF = 0x0015
      then s.v (opX op) else s.delayTimer) ∧
    s'.soundTimer = tick (if op &&& 0xF000 = 0xF000 ∧ op &&& 0x00FF = 0x0018
      then s.v (opX op) else s.soundTimer) ∧
    (op &&& 0xF000 = 0xF000 → op &&& 0x00FF = 0x0015 → s.v (opX op) > 0 →
      s'.delayTimer = s.v (opX op) - 1) := by
  obtain ⟨op', b, c1, hf', he, hb⟩ := Cycle_ok_inv rnd s s' h
  rw [hf] at hf'
  cases hf'
  obtain ⟨-, -, hd0, hs0, hw⟩ := execute_kept rnd _ b c1 he
  have hd : c1.delayTimer = if op &&& 0xF000 = 0xF000 ∧ op &&& 0x00FF = 0x0015
      then s.v (opX op) else s.delayTimer := hd0
  have hs : c1.soundTimer = if op &&& 0xF000 = 0xF000 ∧ op &&& 0x00FF = 0x0018
      then s.v (opX op) else s.soundTimer := hs0
  have hbt : b = true := by
    cases b
    · exact absurd (hw rfl) hwait
    · rfl
  rcases hb with ⟨-, rfl⟩ | ⟨hbf, -⟩
  · have hd' : (updateTimers c1).delayTimer = tick c1.delayTimer := by
      rw [updateTimers_delayTimer]
      unfold tick
      split <;> [rfl; omega]
    have hs' : (updateTimers c1).soundTimer = tick c1.soundTimer := by
      rw [updateTimers_soundTimer]
      unfold tick
      split <;> [rfl; omega]
    refine ⟨by rw [hd', hd], by rw [hs', hs], ?_⟩
    intro h1 h2 h3
    have e : (if op &&& 0xF000 = 0xF000 ∧ op &&& 0x00FF = 0x0015
        then s.v (opX op) else s.delayTimer) = s.v (opX op) := if_pos ⟨h1, h2⟩
    rw [hd', hd, e]
    unfold tick
    rw [if_pos h3]
  · rw [hbt] at hbf
    cases hbf

/-- Witness of C15: `F015` with `V0 = 9`, delay timer 3, sound timer 1. -/
theorem timers_after_step_witness :
    ∃ s', Cycle 0 timerLoadState = .ok s' ∧ s'.delayTimer = 8 ∧ s'.soundTimer = 0 := by
  obtain ⟨s', hs'⟩ : ∃ s', Cycle 0 timerLoadState = .ok s' := ⟨_, rfl⟩
  have h := timers_after_step 0 timerLoadState s' 0xF015 rfl hs' (by decide)
  exact ⟨s', hs', h.2.2 (by decide) (by decide) (by decide), h.2.1⟩

/-! ## Invariants -/

theorem Cycle_sp_le (rnd : Nat) (s s' : CHIP8) (hsp : s.sp ≤ 16)
    (h : Cycle rnd s = .ok s') : s'.sp ≤ 16 := by
  obtain ⟨op, b, c1, -, he, hb⟩ := Cycle_ok_inv rnd s s' h
  have h1 := (execute_kept rnd _ b c1 he).1 hsp
  rcases hb with ⟨-, rfl⟩ | ⟨-, rfl⟩
  · rw [updateTimers_sp]; exact h1
  · exact h1

theorem Cycle_binary (rnd : Nat) (s s' : CHIP8) (hb : Binary s.display)
    (h : Cycle rnd s = .ok s') : Binary s'.display := by
  obtain ⟨op, b, c1, -, he, hb'⟩ := Cycle_ok_inv rnd s s' h
  have h1 := (execute_kept rnd _ b c1 he).2.1 hb
  rcases hb' with ⟨-, rfl⟩ | ⟨-, rfl⟩
  · rw [updateTimers_display]; exact h1
  · exact h1

theorem Key_fields (k : Nat) (p : Bool) (s s' : CHIP8) (h : Key k p s = .ok s') :
    s'.sp = s.sp ∧ s'.display = s.display := by
  unfold Key at h
  split_ifs at h <;> cases h <;> exact ⟨rfl, rfl⟩

theorem LoadROM_fields (b : List Nat) (s : CHIP8) :
    (LoadROM b s).2.sp = s.sp ∧ (LoadROM b s).2.display = s.display := by
  unfold LoadROM
  split <;> exact ⟨rfl, rfl⟩

/-- C18: a successful `Cycle` from a machine with `sp <= 16` yields `sp <= 16`;
`2nnn` with `sp = 16` and `00EE` with `sp = 0` fail instead of producing a
successor; and every machine reachable from `Init` has `sp <= 16`. -/
theorem sp_bound_invariant (rnd : Nat) (s : CHIP8) :
    (s.sp ≤ 16 → ∀ s', Cycle rnd s = .ok s' → s'.sp ≤ 16) ∧
    (∀ nnn, nnn < 4096 → fetch s = .ok (0x2000 + nnn) → s.sp = 16 →
      ∃ e, Cycle rnd s = .error e) ∧
    (fetch s = .ok 0x00EE → s.sp = 0 → ∃ e, Cycle rnd s = .error e) ∧
    (Reachable s → s.sp ≤ 16) := by
  refine ⟨fun hsp s' h => Cycle_sp_le rnd s s' hsp h, ?_, ?_, ?_⟩
  · intro nnn hn hf hsp
    have hfam : (0x2000 + nnn) &&& 0xF000 = 0x2000 := by rw [land_F000]; omega
    exact ⟨{ s with opcode := 0x2000 + nnn }, by simp [Cycle, hf, execute, hfam, hsp]⟩
  · intro hf hsp
    have e1 : (0x00EE &&& 0xF000 : Nat) = 0 := by decide
    have e2 : (0x00EE &&& 0x000F : Nat) = 14 := by decide
    exact ⟨{ s with opcode := 0x00EE, sp := 255 }, by
      simp [Cycle, hf, execute, e1, e2, hsp]⟩
  · intro hr
    induction hr with
    | init c => exact Nat.zero_le 16
    | cycle r _ hc ih => exact Cycle_sp_le r _ _ ih hc
    | key k p _ hk ih => rw [(Key_fields k p _ _ hk).1]; exact ih
    | load b _ _ ih => rw [(LoadROM_fields b _).1]; exact ih
    | draw _ ih => exact ih

/-- Witness of C18: `2300` at `0x200` with `sp = 16` fails. -/
theorem sp_bound_invariant_witness : ∃ e, Cycle 0 fullStackState = .error e :=
  (sp_bound_invariant 0 fullStackState).2.1 0x300 (by decide) rfl rfl

theorem Init_display (c : CHIP8) :
    (Init c).display = (List.range (64 * 32)).foldl (fun d i => setAt d i 0) c.display := by
  simp only [Init]

/-- C19: `Init` leaves a binary display; from a machine whose display is
binary, `Key`, a load and every successful `Cycle` leave a binary display;
and every machine reachable from `Init` has a binary display. -/
theorem display_stays_binary (rnd : Nat) (s : CHIP8) :
    Binary (Init s).display ∧
    (Binary s.display →
      (∀ k p s', Key k p s = .ok s' → Binary s'.display) ∧
      (∀ b, Binary (LoadROM b s).2.display) ∧
      (∀ s', Cycle rnd s = .ok s' → Binary s'.display)) ∧
    (Reachable s → Binary s.display) := by
  have hinit : ∀ c : CHIP8, Binary (Init c).display := by
    intro c k hk
    left
    rw [Init_display, foldl_fill (fun _ => 0) _ c.display k, if_pos hk]
  refine ⟨hinit s, ?_, ?_⟩
  · intro hb
    refine ⟨?_, ?_, fun s' h => Cycle_binary rnd s s' hb h⟩
    · intro k p s' hk
      rw [(Key_fields k p s s' hk).2]; exact hb
    · intro b
      rw [(LoadROM_fields b s).2]; exact hb
  · intro hr
    induction hr with
    | init c => exact hinit c
    | cycle r _ hc ih => exact Cycle_binary r _ _ ih hc
    | key k p _ hk ih => rw [(Key_fields k p _ _ hk).2]; exact ih
    | load b _ _ ih => rw [(LoadROM_fields b _).2]; exact ih
    | draw _ ih => exact ih

/-- Witness of C19: the display after `Init` of a machine that has run. -/
theorem display_stays_binary_witness : Binary (Init usedState).display :=
  (display_stays_binary 0 usedState).1

end Chip8
